import Mathlib

/-!
Shallow embedding of the EventGuestsManager core services
(src/app/services/participants.py, organizer.py, rides.py and the data
model of src/app/models.py / enums.py) as pure Lean functions over an
explicit database state, together with theorems settling the frozen
claims about the specification.

Conventions of the embedding:
* SQL rows become list elements; `SELECT ... WHERE` becomes `List.filter`.
* The SQLAlchemy method `.one_or_none()` (which raises `MultipleResultsFound` on
  more than one row) and `.one()` are modelled by `oneOrNone` / `oneRow`.
* `HTTPException(code, msg)` becomes the error value `Err.http code msg`;
  uncaught driver-level exceptions become `Err.multipleResultsFound` /
  `Err.noResultFound`.
* Each service call runs in one transaction: a service function returns
  `Except Err (DB × result)`; on an error the state of the caller is unchanged
  (rollback), which `applyOp` makes explicit.
* Fresh primary keys and `created_at` timestamps are drawn from a
  monotone counter `DB.nextId` (the database assigns increasing ids and
  timestamps).
-/

namespace EGM

inductive EventJoinPolicy where
  | OPEN
  | APPROVAL
  | OPEN_UNTIL_CAPACITY_THEN_APPROVAL
deriving DecidableEq, Repr

inductive EventStatus where
  | DRAFT
  | PUBLISHED
  | CANCELED
deriving DecidableEq, Repr

inductive ParticipationStatus where
  | APPROVED
  | PENDING
  | REJECTED
  | CANCELED
deriving DecidableEq, Repr

inductive RideMode where
  | NONE
  | NEED
  | OFFER
deriving DecidableEq, Repr

inductive RideMatchStatus where
  | PROPOSED
  | ACCEPTED
  | REJECTED
  | CANCELED
deriving DecidableEq, Repr

/-- Row of the `events` table (the fields the services read). -/
structure Event where
  id : Nat
  created_by : Nat
  capacity : Option Nat
  join_policy : EventJoinPolicy
  status : EventStatus
deriving DecidableEq, Repr

/-- Row of the `event_participants` table. -/
structure Participant where
  id : Nat
  event_id : Nat
  user_id : Nat
  status : ParticipationStatus
  ride_mode : RideMode
  seats_offered : Nat
  pickup_area : Option String
  notes : Option String
  created_at : Nat
deriving DecidableEq, Repr

/-- Row of the `ride_matches` table. -/
structure RideMatch where
  id : Nat
  event_id : Nat
  driver_participant_id : Nat
  rider_participant_id : Nat
  status : RideMatchStatus
  created_by : Nat
  created_at : Nat
deriving DecidableEq, Repr

/-- The whole database state. -/
structure DB where
  events : List Event
  participants : List Participant
  ride_matches : List RideMatch
  nextId : Nat
deriving DecidableEq, Repr

/-- Errors a service call can end in: `HTTPException(code, msg)` raise
sites, and the SQLAlchemy result-shape exceptions that `.one_or_none()`
and `.one()` can raise. -/
inductive Err where
  | http (code : Nat) (msg : String)
  | multipleResultsFound
  | noResultFound
deriving DecidableEq, Repr

/-- SQLAlchemy `.one_or_none()`: none for an empty result, the row for a
singleton, and `MultipleResultsFound` otherwise. -/
def oneOrNone {α : Type} : List α → Except Err (Option α)
  | [] => .ok none
  | [a] => .ok (some a)
  | _ :: _ :: _ => .error .multipleResultsFound

/-- SQLAlchemy `.one()`: exactly one row or an exception. -/
def oneRow {α : Type} : List α → Except Err α
  | [] => .error .noResultFound
  | [a] => .ok a
  | _ :: _ :: _ => .error .multipleResultsFound

/-- participants.py `_normalize_ride`: OFFER needs `seats_offered >= 1`,
any other mode forces 0 (a non-zero value is a validation error).  The
Python argument is `int | None` with `None` mapped to 0. -/
def normalize_ride (ride_mode : RideMode) (seats_offered : Option Int) :
    Except Err (RideMode × Nat) :=
  let seats : Int := match seats_offered with | none => 0 | some n => n
  if ride_mode = RideMode.OFFER then
    if seats < 1 then
      .error (.http 400 "seats_offered must be >= 1 when ride_mode=OFFER")
    else
      .ok (ride_mode, seats.toNat)
  else
    if seats ≠ 0 then
      .error (.http 400 "seats_offered must be 0 unless ride_mode=OFFER")
    else
      .ok (ride_mode, 0)

/-- participants.py `_count_approved`: number of APPROVED participants of
the event. -/
def count_approved (s : DB) (event_id : Nat) : Nat :=
  List.countP
    (fun (p : Participant) => p.event_id == event_id && p.status == ParticipationStatus.APPROVED)
    s.participants

/-- Fullness test of `_resolve_join_status`: capacity is set and the
approved count has reached it. -/
def is_full (event : Event) (approved_count : Nat) : Bool :=
  match event.capacity with
  | none => false
  | some c => approved_count ≥ c

/-- participants.py `_resolve_join_status`. -/
def resolve_join_status (event : Event) (approved_count : Nat) :
    Except Err ParticipationStatus :=
  if event.status ≠ EventStatus.PUBLISHED then
    .error (.http 400 "Event is not published")
  else
    match event.join_policy with
    | .OPEN =>
        if is_full event approved_count then .error (.http 400 "Event is full")
        else .ok ParticipationStatus.APPROVED
    | .APPROVAL => .ok ParticipationStatus.PENDING
    | .OPEN_UNTIL_CAPACITY_THEN_APPROVAL =>
        .ok (if is_full event approved_count then ParticipationStatus.PENDING
             else ParticipationStatus.APPROVED)

/-- The row filter used whenever a participant is looked up by
(event, user). -/
def partSel (event_id user_id : Nat) (p : Participant) : Bool :=
  p.event_id == event_id && p.user_id == user_id

/-- Selector of the PENDING participants of an event, as used by the
promotion query of `leave_event`. -/
def pendingSel (event_id : Nat) (q : Participant) : Bool :=
  q.event_id == event_id && q.status == ParticipationStatus.PENDING

/-- Selector of the APPROVED participants of an event (body of
`count_approved`). -/
def approvedSel (event_id : Nat) (q : Participant) : Bool :=
  q.event_id == event_id && q.status == ParticipationStatus.APPROVED

/-- participants.py `join_event`.  Note the source order: the event is
locked and checked, `approved` is counted and the status resolved by
policy, and only then are the ride fields normalized. -/
def join_event (s : DB) (event_id user_id : Nat) (ride_mode : RideMode)
    (seats_offered : Option Int) (pickup_area notes : Option String) :
    Except Err (DB × Participant) :=
  match oneOrNone (s.events.filter (fun (e : Event) => e.id == event_id)) with
  | .error e => .error e
  | .ok none => .error (.http 404 "Event not found")
  | .ok (some event) =>
    if event.status = EventStatus.CANCELED then
      .error (.http 400 "Event is canceled")
    else
      match resolve_join_status event (count_approved s event_id) with
      | .error e => .error e
      | .ok st =>
        match normalize_ride ride_mode seats_offered with
        | .error e => .error e
        | .ok (rm, seats) =>
          match oneOrNone (s.participants.filter (partSel event_id user_id)) with
          | .error e => .error e
          | .ok none =>
              let p : Participant :=
                { id := s.nextId, event_id := event_id, user_id := user_id,
                  status := st, ride_mode := rm, seats_offered := seats,
                  pickup_area := pickup_area, notes := notes,
                  created_at := s.nextId }
              .ok ({ s with participants := s.participants ++ [p],
                            nextId := s.nextId + 1 }, p)
          | .ok (some p0) =>
              let p' : Participant :=
                { p0 with status := st, ride_mode := rm, seats_offered := seats,
                          pickup_area := match pickup_area with
                            | some v => some v | none => p0.pickup_area,
                          notes := match notes with
                            | some v => some v | none => p0.notes }
              let parts :=
                s.participants.map
                  (fun q => if partSel event_id user_id q then p' else q)
              .ok ({ s with participants := parts }, p')

/-- Insertion into a list sorted by `created_at` (stable for equal keys). -/
def insertByCreated (p : Participant) : List Participant → List Participant
  | [] => [p]
  | q :: qs =>
      if p.created_at ≤ q.created_at then p :: q :: qs
      else q :: insertByCreated p qs

/-- ORDER BY created_at ASC (stable insertion sort). -/
def sortByCreated (l : List Participant) : List Participant :=
  l.foldr insertByCreated []

/-- Boolean test used by the cascade cancellations: a PROPOSED or
ACCEPTED match of the event referencing participant `pid` as driver or
rider. -/
def activeMatchOf (event_id pid : Nat) (m : RideMatch) : Bool :=
  m.event_id == event_id &&
    (m.status == RideMatchStatus.PROPOSED || m.status == RideMatchStatus.ACCEPTED) &&
    (m.driver_participant_id == pid || m.rider_participant_id == pid)

/-- The part of `join_event` that runs after the event row is fetched and
the canceled-event check has passed (named so that theorems can reason
about joins on a known event row). -/
def join_event_core (s : DB) (event_id user_id : Nat) (event : Event)
    (ride_mode : RideMode) (seats_offered : Option Int)
    (pickup_area notes : Option String) : Except Err (DB × Participant) :=
  match resolve_join_status event (count_approved s event_id) with
  | .error e => .error e
  | .ok st =>
    match normalize_ride ride_mode seats_offered with
    | .error e => .error e
    | .ok (rm, seats) =>
      match oneOrNone (s.participants.filter (partSel event_id user_id)) with
      | .error e => .error e
      | .ok none =>
          let p : Participant :=
            { id := s.nextId, event_id := event_id, user_id := user_id,
              status := st, ride_mode := rm, seats_offered := seats,
              pickup_area := pickup_area, notes := notes,
              created_at := s.nextId }
          .ok ({ s with participants := s.participants ++ [p],
                        nextId := s.nextId + 1 }, p)
      | .ok (some p0) =>
          let p' : Participant :=
            { p0 with status := st, ride_mode := rm, seats_offered := seats,
                      pickup_area := match pickup_area with
                        | some v => some v | none => p0.pickup_area,
                      notes := match notes with
                        | some v => some v | none => p0.notes }
          let parts :=
            s.participants.map
              (fun q => if partSel event_id user_id q then p' else q)
          .ok ({ s with participants := parts }, p')

/-- participants.py `leave_event`: cancel the participation, cascade the
active matches, then possibly auto-promote the oldest PENDING
participant (fetched with `.one_or_none()` on an unlimited query). -/
def leave_event (s : DB) (event_id user_id : Nat) :
    Except Err (DB × Participant) :=
  match oneOrNone (s.participants.filter (partSel event_id user_id)) with
  | .error e => .error e
  | .ok none => .error (.http 404 "Not joined")
  | .ok (some p) =>
    let p' : Participant :=
      { p with status := ParticipationStatus.CANCELED,
               ride_mode := RideMode.NONE, seats_offered := 0 }
    let parts1 :=
      s.participants.map (fun q => if partSel event_id user_id q then p' else q)
    let matches1 :=
      s.ride_matches.map
        (fun m => if activeMatchOf event_id p.id m
                  then { m with status := RideMatchStatus.CANCELED } else m)
    let s1 : DB := { s with participants := parts1, ride_matches := matches1 }
    match oneRow (s1.events.filter (fun (e : Event) => e.id == event_id)) with
    | .error e => .error e
    | .ok event =>
      match event.capacity with
      | none => .ok (s1, p')
      | some c =>
        if event.join_policy = EventJoinPolicy.OPEN_UNTIL_CAPACITY_THEN_APPROVAL
            ∧ c ≠ 0 then
          if count_approved s1 event_id < c then
            match oneOrNone (sortByCreated (s1.participants.filter
                (fun (q : Participant) => q.event_id == event_id &&
                  q.status == ParticipationStatus.PENDING))) with
            | .error e => .error e
            | .ok none => .ok (s1, p')
            | .ok (some _) =>
                let parts2 :=
                  s1.participants.map
                    (fun q => if q.event_id == event_id &&
                        q.status == ParticipationStatus.PENDING
                      then { q with status := ParticipationStatus.APPROVED }
                      else q)
                .ok ({ s1 with participants := parts2 }, p')
          else .ok (s1, p')
        else .ok (s1, p')

/-- participants.py `update_my_participation`. -/
def update_my_participation (s : DB) (event_id user_id : Nat)
    (ride_mode : Option RideMode) (seats_offered : Option Int)
    (pickup_area notes : Option String) :
    Except Err (DB × Participant) :=
  match oneOrNone (s.participants.filter (partSel event_id user_id)) with
  | .error e => .error e
  | .ok none => .error (.http 404 "Not joined")
  | .ok (some p) =>
    if p.status ≠ ParticipationStatus.APPROVED ∧
       p.status ≠ ParticipationStatus.PENDING then
      .error (.http 400 "Cannot update in this status")
    else
      let prev_mode := p.ride_mode
      let new_mode := match ride_mode with | some m => m | none => p.ride_mode
      let new_seats : Int :=
        match seats_offered with | some n => n | none => (p.seats_offered : Int)
      match normalize_ride new_mode (some new_seats) with
      | .error e => .error e
      | .ok (nm, ns) =>
        let p' : Participant :=
          { p with ride_mode := nm, seats_offered := ns,
                   pickup_area := match pickup_area with
                     | some v => some v | none => p.pickup_area,
                   notes := match notes with
                     | some v => some v | none => p.notes }
        let parts1 :=
          s.participants.map
            (fun q => if partSel event_id user_id q then p' else q)
        let matches1 :=
          if prev_mode ≠ nm then
            s.ride_matches.map
              (fun m => if activeMatchOf event_id p.id m
                        then { m with status := RideMatchStatus.CANCELED } else m)
          else s.ride_matches
        .ok ({ s with participants := parts1, ride_matches := matches1 }, p')

/-- organizer.py `set_participant_status`: organizer-only transition to
APPROVED or REJECTED, with the capacity re-check on APPROVED. -/
def set_participant_status (s : DB) (event_id organizer_id participant_id : Nat)
    (next_status : ParticipationStatus) : Except Err (DB × Participant) :=
  if next_status ≠ ParticipationStatus.APPROVED ∧
     next_status ≠ ParticipationStatus.REJECTED then
    .error (.http 400 "Invalid status change")
  else
    match oneOrNone (s.events.filter (fun (e : Event) => e.id == event_id)) with
    | .error e => .error e
    | .ok none => .error (.http 404 "Event not found")
    | .ok (some event) =>
      if event.created_by ≠ organizer_id then
        .error (.http 403 "Forbidden")
      else
        match oneOrNone (s.participants.filter
            (fun (q : Participant) => q.id == participant_id &&
              q.event_id == event_id)) with
        | .error e => .error e
        | .ok none => .error (.http 404 "Participant not found")
        | .ok (some p) =>
          let write : Except Err (DB × Participant) :=
            let p' : Participant := { p with status := next_status }
            let parts1 :=
              s.participants.map
                (fun q => if q.id == participant_id && q.event_id == event_id
                          then p' else q)
            .ok ({ s with participants := parts1 }, p')
          if next_status = ParticipationStatus.APPROVED then
            match event.capacity with
            | some c =>
                if count_approved s event_id ≥ c then
                  .error (.http 400 "Cannot approve: event is full")
                else write
            | none => write
          else write

/-- Selector of the ACCEPTED matches of an event with a given driver
(body of `_accepted_count`). -/
def acceptedSel (event_id driver_pid : Nat) (m : RideMatch) : Bool :=
  m.event_id == event_id && m.driver_participant_id == driver_pid &&
    m.status == RideMatchStatus.ACCEPTED

/-- rides.py `_accepted_count`: ACCEPTED matches of the event naming
`driver_pid` as driver. -/
def accepted_count (s : DB) (event_id driver_pid : Nat) : Nat :=
  List.countP
    (fun (m : RideMatch) => m.event_id == event_id &&
      m.driver_participant_id == driver_pid &&
      m.status == RideMatchStatus.ACCEPTED)
    s.ride_matches

/-- rides.py `_ensure_compatible_and_seat`: the shared compatibility and
seat check, run at proposal time and again at acceptance time. -/
def ensure_compatible_and_seat (s : DB) (event_id driver_pid rider_pid : Nat) :
    Except Err Unit :=
  match oneOrNone (s.participants.filter
      (fun (q : Participant) => q.id == driver_pid && q.event_id == event_id)) with
  | .error e => .error e
  | .ok driverOpt =>
    match oneOrNone (s.participants.filter
        (fun (q : Participant) => q.id == rider_pid && q.event_id == event_id)) with
    | .error e => .error e
    | .ok riderOpt =>
      match driverOpt with
      | none => .error (.http 404 "Driver or rider not found")
      | some driver =>
      match riderOpt with
      | none => .error (.http 404 "Driver or rider not found")
      | some rider =>
        if driver.id = rider.id then
          .error (.http 400 "Driver and rider must be different")
        else if driver.status ≠ ParticipationStatus.APPROVED ∨
                rider.status ≠ ParticipationStatus.APPROVED then
          .error (.http 400 "Both participants must be approved")
        else if driver.ride_mode ≠ RideMode.OFFER then
          .error (.http 400 "Driver is not offering")
        else if rider.ride_mode ≠ RideMode.NEED then
          .error (.http 400 "Rider does not need a ride")
        else if accepted_count s event_id driver.id ≥ driver.seats_offered then
          .error (.http 400 "No seats remaining for this driver")
        else
          .ok ()

/-- rides.py `create_match`: run the check, then insert a PROPOSED match. -/
def create_match (s : DB) (event_id created_by driver_pid rider_pid : Nat) :
    Except Err (DB × RideMatch) :=
  match ensure_compatible_and_seat s event_id driver_pid rider_pid with
  | .error e => .error e
  | .ok _ =>
    let m : RideMatch :=
      { id := s.nextId, event_id := event_id,
        driver_participant_id := driver_pid, rider_participant_id := rider_pid,
        status := RideMatchStatus.PROPOSED, created_by := created_by,
        created_at := s.nextId }
    .ok ({ s with ride_matches := s.ride_matches ++ [m],
                  nextId := s.nextId + 1 }, m)

/-- Authorization test of `update_match_status`: the actor is the
proposer, the driver user or the rider user. -/
def allowedUser (user_id : Nat) (m : RideMatch)
    (driverOpt riderOpt : Option Participant) : Bool :=
  user_id == m.created_by ||
    (match driverOpt with
     | some d => user_id == d.user_id | none => false) ||
    (match riderOpt with
     | some r => user_id == r.user_id | none => false)

/-- rides.py `update_match_status`: authorization, then the full
compatibility/seat re-check when the target is ACCEPTED, then the status
write.  The driver/rider lookups here filter by participant id only
(no event filter), as in the source. -/
def update_match_status (s : DB) (match_id user_id : Nat)
    (next_status : RideMatchStatus) : Except Err (DB × RideMatch) :=
  if next_status ≠ RideMatchStatus.ACCEPTED ∧
     next_status ≠ RideMatchStatus.REJECTED ∧
     next_status ≠ RideMatchStatus.CANCELED then
    .error (.http 400 "Invalid next status")
  else
    match oneOrNone (s.ride_matches.filter
        (fun (m : RideMatch) => m.id == match_id)) with
    | .error e => .error e
    | .ok none => .error (.http 404 "Match not found")
    | .ok (some m) =>
      match oneOrNone (s.participants.filter
          (fun (q : Participant) => q.id == m.driver_participant_id)) with
      | .error e => .error e
      | .ok driverOpt =>
        match oneOrNone (s.participants.filter
            (fun (q : Participant) => q.id == m.rider_participant_id)) with
        | .error e => .error e
        | .ok riderOpt =>
          let allowed : Bool := allowedUser user_id m driverOpt riderOpt
          if !allowed then
            .error (.http 403 "Forbidden")
          else
            let write : Except Err (DB × RideMatch) :=
              let m' : RideMatch := { m with status := next_status }
              let ms :=
                s.ride_matches.map
                  (fun mm => if mm.id == match_id then m' else mm)
              .ok ({ s with ride_matches := ms }, m')
            if next_status = RideMatchStatus.ACCEPTED then
              match ensure_compatible_and_seat s m.event_id
                  m.driver_participant_id m.rider_participant_id with
              | .error e => .error e
              | .ok _ => write
            else write

/-- The dictionary returned by organizer.py `event_stats`. -/
structure EventStats where
  event_id : Nat
  approved_count : Nat
  pending_count : Nat
  rejected_count : Nat
  canceled_count : Nat
  need_ride_count : Nat
  offer_ride_count : Nat
  seats_offered_total : Nat
  seats_accepted_total : Nat
  seats_remaining_total : Nat
  unmatched_riders_count : Nat
deriving DecidableEq, Repr

/-- Participants of the event with a given status. -/
def count_status (s : DB) (event_id : Nat) (st : ParticipationStatus) : Nat :=
  List.countP
    (fun (p : Participant) => p.event_id == event_id && p.status == st)
    s.participants

/-- APPROVED participants of the event with a given ride mode. -/
def approvedWithMode (s : DB) (event_id : Nat) (rm : RideMode) :
    List Participant :=
  s.participants.filter
    (fun (p : Participant) => p.event_id == event_id &&
      p.status == ParticipationStatus.APPROVED && p.ride_mode == rm)

/-- ACCEPTED matches of the event. -/
def acceptedMatches (s : DB) (event_id : Nat) : List RideMatch :=
  s.ride_matches.filter
    (fun (m : RideMatch) => m.event_id == event_id &&
      m.status == RideMatchStatus.ACCEPTED)

/-- organizer.py `event_stats`.  `unmatched_riders_count` is the size of
the Python set difference `need_riders_set - accepted_riders_set`. -/
def event_stats (s : DB) (event_id : Nat) : EventStats :=
  let offered := ((approvedWithMode s event_id RideMode.OFFER).map
    (fun p => p.seats_offered)).sum
  let accepted := (acceptedMatches s event_id).length
  let need_riders_set : Finset Nat :=
    ((approvedWithMode s event_id RideMode.NEED).map (fun p => p.id)).toFinset
  let accepted_riders_set : Finset Nat :=
    ((acceptedMatches s event_id).map
      (fun m => m.rider_participant_id)).toFinset
  { event_id := event_id
    approved_count := count_status s event_id ParticipationStatus.APPROVED
    pending_count := count_status s event_id ParticipationStatus.PENDING
    rejected_count := count_status s event_id ParticipationStatus.REJECTED
    canceled_count := count_status s event_id ParticipationStatus.CANCELED
    need_ride_count := (approvedWithMode s event_id RideMode.NEED).length
    offer_ride_count := (approvedWithMode s event_id RideMode.OFFER).length
    seats_offered_total := offered
    seats_accepted_total := accepted
    seats_remaining_total := ((offered : Int) - accepted).toNat
    unmatched_riders_count := (need_riders_set \ accepted_riders_set).card }

/-- Inner structure of the rides.py `suggestions` loop: walk the drivers
in order, each consuming `seats_offered - accepted` riders from the
front of the rider queue, and stop once the rider queue is exhausted. -/
def suggestionsGo (s : DB) (event_id : Nat) :
    List Participant → List Participant → List (Nat × Nat)
  | [], _ => []
  | d :: ds, riders =>
      let accepted := accepted_count s event_id d.id
      let remaining : Int := (d.seats_offered : Int) - accepted
      let taken := riders.take remaining.toNat
      let rest := riders.drop remaining.toNat
      let out := taken.map (fun r => (d.id, r.id))
      if rest.isEmpty then out
      else out ++ suggestionsGo s event_id ds rest

/-- rides.py `suggestions`: greedy advisory driver/rider pairing over the
APPROVED OFFER and APPROVED NEED participants in ascending creation
order.  Pairs are (driver participant id, rider participant id). -/
def suggestions (s : DB) (event_id : Nat) : List (Nat × Nat) :=
  let drivers := sortByCreated (approvedWithMode s event_id RideMode.OFFER)
  let riders := sortByCreated (approvedWithMode s event_id RideMode.NEED)
  suggestionsGo s event_id drivers riders

/-- One inbound mutating call, with its arguments. -/
inductive Op where
  | join (event_id user_id : Nat) (ride_mode : RideMode)
      (seats_offered : Option Int) (pickup_area notes : Option String)
  | leave (event_id user_id : Nat)
  | updateMe (event_id user_id : Nat) (ride_mode : Option RideMode)
      (seats_offered : Option Int) (pickup_area notes : Option String)
  | setStatus (event_id organizer_id participant_id : Nat)
      (next_status : ParticipationStatus)
  | createMatch (event_id created_by driver_pid rider_pid : Nat)
  | updateMatch (match_id user_id : Nat) (next_status : RideMatchStatus)
deriving DecidableEq, Repr

/-- Run one operation as one transaction: the new state on success, the
old state on any error (rollback). -/
def applyOp (s : DB) : Op → DB
  | .join eid uid rm seats pa no =>
      match join_event s eid uid rm seats pa no with
      | .ok (s', _) => s' | .error _ => s
  | .leave eid uid =>
      match leave_event s eid uid with
      | .ok (s', _) => s' | .error _ => s
  | .updateMe eid uid rm seats pa no =>
      match update_my_participation s eid uid rm seats pa no with
      | .ok (s', _) => s' | .error _ => s
  | .setStatus eid oid pid st =>
      match set_participant_status s eid oid pid st with
      | .ok (s', _) => s' | .error _ => s
  | .createMatch eid cb dpid rpid =>
      match create_match s eid cb dpid rpid with
      | .ok (s', _) => s' | .error _ => s
  | .updateMatch mid uid st =>
      match update_match_status s mid uid st with
      | .ok (s', _) => s' | .error _ => s

/-- Run a sequence of operations. -/
def runOps (s : DB) (ops : List Op) : DB :=
  ops.foldl applyOp s

/-- Participant row with a given primary key, if any. -/
def findParticipant (s : DB) (pid : Nat) : Option Participant :=
  s.participants.find? (fun q => q.id == pid)

/-- Status carried by a successful join/update result. -/
def joinedStatus (r : Except Err (DB × Participant)) :
    Option ParticipationStatus :=
  match r with
  | .ok (_, p) => some p.status
  | .error _ => none

/-- The driver-seat invariant of claim C2: no participant has more
ACCEPTED matches as driver than seats_offered. -/
def driverSeatInv (s : DB) : Bool :=
  s.participants.all
    (fun p => decide (accepted_count s p.event_id p.id ≤ p.seats_offered))

/-- Well-formedness of the id counter: every stored participant id and
every driver reference is below `nextId`, so fresh rows never collide
with existing references. -/
def idsBounded (s : DB) : Bool :=
  s.participants.all (fun p => decide (p.id < s.nextId)) &&
    s.ride_matches.all (fun m => decide (m.driver_participant_id < s.nextId))

/-- An operation is seat-safe in state `s` when it does not rewrite the
ride fields of an existing participant to fewer seats than that
participant currently has ACCEPTED driver matches, unless the rewrite
changes the ride mode (which cascade-cancels those matches).  A re-join
never cascades, so for join the bound is required unconditionally. -/
def seatSafeOp (s : DB) : Op → Bool
  | .join eid uid rm seats _ _ =>
      (match normalize_ride rm seats with
       | .ok (_, ns) =>
           s.participants.all (fun p =>
             !(partSel eid uid p) || decide (accepted_count s eid p.id ≤ ns))
       | .error _ => true)
  | .updateMe eid uid rm seats _ _ =>
      s.participants.all (fun p =>
        !(partSel eid uid p) ||
        (let nmode := match rm with | some m => m | none => p.ride_mode
         let nseat : Int :=
           match seats with | some n => n | none => (p.seats_offered : Int)
         match normalize_ride nmode (some nseat) with
         | .ok (nm, ns) =>
             !(nm == p.ride_mode) || decide (accepted_count s eid p.id ≤ ns)
         | .error _ => true))
  | _ => true

/-- A trace is seat-safe when every step is, in the state it runs in. -/
def seatSafeTrace : DB → List Op → Bool
  | _, [] => true
  | s, op :: ops => seatSafeOp s op && seatSafeTrace (applyOp s op) ops

/-- Follows the words of the spec for the refinement comparison of claim
C6: unmatched_riders_count = |approved NEED riders| minus |distinct
riders with an ACCEPTED match|, as integer subtraction. -/
def unmatched_riders_spec (s : DB) (event_id : Nat) : Int :=
  ((approvedWithMode s event_id RideMode.NEED).length : Int) -
    (((acceptedMatches s event_id).map
        (fun m => m.rider_participant_id)).toFinset.card : Int)

/-- Follows the words of spec section 4.4 for the refinement comparison
of claim C9: iterate drivers in order; for each, compute remaining =
seats_offered minus the current ACCEPTED-match count; consume that many
riders from the front of the rider queue, emitting one suggested pairing
per consumed rider; stop entirely once the rider queue is exhausted. -/
def plannerSpec (remainingOf : Participant → Int) :
    List Participant → List Participant → List (Nat × Nat)
  | [], _ => []
  | _ :: _, [] => []
  | d :: ds, r :: rs =>
      let k := (remainingOf d).toNat
      ((r :: rs).take k).map (fun x => (d.id, x.id)) ++
        plannerSpec remainingOf ds ((r :: rs).drop k)

/-!  Concrete states used by witnesses and counterexamples. -/

/-- Published OPEN event 1 with the given capacity, owned by user 100. -/
def openEvent (cap : Option Nat) : Event :=
  { id := 1, created_by := 100, capacity := cap,
    join_policy := EventJoinPolicy.OPEN, status := EventStatus.PUBLISHED }

/-- Published OPEN_UNTIL_CAPACITY_THEN_APPROVAL event 1, owned by 100. -/
def openUntilEvent (cap : Option Nat) : Event :=
  { id := 1, created_by := 100, capacity := cap,
    join_policy := EventJoinPolicy.OPEN_UNTIL_CAPACITY_THEN_APPROVAL,
    status := EventStatus.PUBLISHED }

/-- Participant of event 1 with the given id, user, status and ride
fields; `created_at` equal to the id. -/
def mkParticipant (i uid : Nat) (st : ParticipationStatus) (rm : RideMode)
    (seats : Nat) : Participant :=
  { id := i, event_id := 1, user_id := uid, status := st, ride_mode := rm,
    seats_offered := seats, pickup_area := none, notes := none,
    created_at := i }

/-- Initial state of the C1 witness scenario: an empty OPEN event with
capacity 2. -/
def w1State : DB :=
  { events := [openEvent (some 2)], participants := [], ride_matches := [],
    nextId := 0 }

/-- Three users join the capacity-2 event in sequence. -/
def w1Ops : List Op :=
  [ Op.join 1 1 RideMode.NONE none none none,
    Op.join 1 2 RideMode.NONE none none none,
    Op.join 1 3 RideMode.NONE none none none ]

/-- Initial state of the C2 scenario: an uncapped published OPEN event
and nobody joined yet. -/
def c2State : DB :=
  { events := [openEvent none], participants := [], ride_matches := [],
    nextId := 0 }

/-- C2 counterexample trace: a driver joins offering 2 seats (participant
id 0), two riders join (ids 1 and 2), both matches are created (ids 3
and 4) and accepted, then the driver lowers seats_offered to 1 with
ride_mode unchanged. -/
def c2Ops : List Op :=
  [ Op.join 1 1 RideMode.OFFER (some 2) none none,
    Op.join 1 2 RideMode.NEED none none none,
    Op.join 1 3 RideMode.NEED none none none,
    Op.createMatch 1 1 0 1,
    Op.createMatch 1 1 0 2,
    Op.updateMatch 3 1 RideMatchStatus.ACCEPTED,
    Op.updateMatch 4 1 RideMatchStatus.ACCEPTED,
    Op.updateMe 1 1 (some RideMode.OFFER) (some 1) none none ]

/-- The same trace without the final seat reduction (a seat-safe trace,
used by the witness of the amended C2). -/
def w2Ops : List Op := c2Ops.take 7

/-- State of the C3 witness: OPEN_UNTIL_CAPACITY_THEN_APPROVAL event
with capacity 1 already holding one APPROVED participant. -/
def c3State : DB :=
  { events := [openUntilEvent (some 1)],
    participants := [mkParticipant 10 1 ParticipationStatus.APPROVED RideMode.NONE 0],
    ride_matches := [], nextId := 20 }

/-- The PROPOSED match of the C4 witness scenario: driver participant
10, rider participant 11, proposed by user 1. -/
def c4Match : RideMatch :=
  { id := 30, event_id := 1, driver_participant_id := 10,
    rider_participant_id := 11, status := RideMatchStatus.PROPOSED,
    created_by := 1, created_at := 30 }

/-- State of the C4 witness: a PROPOSED match 30 between APPROVED driver
10 (OFFER, 1 seat) and APPROVED rider 11 (NEED), proposed by user 1. -/
def c4State : DB :=
  { events := [openEvent none],
    participants := [mkParticipant 10 1 ParticipationStatus.APPROVED RideMode.OFFER 1,
                     mkParticipant 11 2 ParticipationStatus.APPROVED RideMode.NEED 0],
    ride_matches := [c4Match],
    nextId := 40 }

/-- State of the C5 scenario: OPEN_UNTIL_CAPACITY_THEN_APPROVAL event
with capacity 1, one APPROVED participant (user 1) and two PENDING
participants (users 2 and 3, created later). -/
def c5State : DB :=
  { events := [openUntilEvent (some 1)],
    participants := [mkParticipant 10 1 ParticipationStatus.APPROVED RideMode.NONE 0,
                     mkParticipant 11 2 ParticipationStatus.PENDING RideMode.NONE 0,
                     mkParticipant 12 3 ParticipationStatus.PENDING RideMode.NONE 0],
    ride_matches := [], nextId := 20 }

/-- Like `c5State` but with a single PENDING participant: the case the
source handles as the spec intends. -/
def c5StateOne : DB :=
  { events := [openUntilEvent (some 1)],
    participants := [mkParticipant 10 1 ParticipationStatus.APPROVED RideMode.NONE 0,
                     mkParticipant 11 2 ParticipationStatus.PENDING RideMode.NONE 0],
    ride_matches := [], nextId := 20 }

/-- State of the C6 counterexample: two APPROVED NEED riders (ids 10 and
11), a REJECTED participant 12 who still holds an ACCEPTED match as
rider, and the driver 13. -/
def c6State : DB :=
  { events := [openEvent none],
    participants := [mkParticipant 10 1 ParticipationStatus.APPROVED RideMode.NEED 0,
                     mkParticipant 11 2 ParticipationStatus.APPROVED RideMode.NEED 0,
                     mkParticipant 12 3 ParticipationStatus.REJECTED RideMode.NEED 0,
                     mkParticipant 13 4 ParticipationStatus.APPROVED RideMode.OFFER 1],
    ride_matches := [ { id := 30, event_id := 1, driver_participant_id := 13,
                        rider_participant_id := 12,
                        status := RideMatchStatus.ACCEPTED, created_by := 4,
                        created_at := 30 } ],
    nextId := 40 }

/-- State of the C6 witness: both APPROVED NEED riders, one of whom (11)
holds an ACCEPTED match, so every accepted rider is an approved NEED
rider. -/
def c6wState : DB :=
  { events := [openEvent none],
    participants := [mkParticipant 10 1 ParticipationStatus.APPROVED RideMode.NEED 0,
                     mkParticipant 11 2 ParticipationStatus.APPROVED RideMode.NEED 0,
                     mkParticipant 13 4 ParticipationStatus.APPROVED RideMode.OFFER 1],
    ride_matches := [ { id := 30, event_id := 1, driver_participant_id := 13,
                        rider_participant_id := 11,
                        status := RideMatchStatus.ACCEPTED, created_by := 4,
                        created_at := 30 } ],
    nextId := 40 }

/-- State of the C7 counterexample: a full OPEN event (capacity 1, one
APPROVED participant). -/
def c7State : DB :=
  { events := [openEvent (some 1)],
    participants := [mkParticipant 10 1 ParticipationStatus.APPROVED RideMode.NONE 0],
    ride_matches := [], nextId := 20 }

/-- Unpublished (DRAFT) variant of event 1. -/
def draftEvent : Event :=
  { id := 1, created_by := 100, capacity := none,
    join_policy := EventJoinPolicy.OPEN, status := EventStatus.DRAFT }

/-- Canceled variant of event 1. -/
def canceledEvent : Event :=
  { id := 1, created_by := 100, capacity := none,
    join_policy := EventJoinPolicy.OPEN, status := EventStatus.CANCELED }

/-- DRAFT event state for the C8 counterexample, with an APPROVED
participant of user 1. -/
def c8DraftState : DB :=
  { events := [draftEvent],
    participants := [mkParticipant 10 1 ParticipationStatus.APPROVED RideMode.NONE 0],
    ride_matches := [], nextId := 20 }

/-- CANCELED event state for the C8 counterexample, with an APPROVED
participant of user 1. -/
def c8CancState : DB :=
  { events := [canceledEvent],
    participants := [mkParticipant 10 1 ParticipationStatus.APPROVED RideMode.NONE 0],
    ride_matches := [], nextId := 20 }

/-- State of the C9 example: drivers 10 (1 seat) and 11 (2 seats) and
riders 12, 13, 14, all APPROVED, in creation order, no matches. -/
def c9State : DB :=
  { events := [openEvent none],
    participants := [mkParticipant 10 1 ParticipationStatus.APPROVED RideMode.OFFER 1,
                     mkParticipant 11 2 ParticipationStatus.APPROVED RideMode.OFFER 2,
                     mkParticipant 12 3 ParticipationStatus.APPROVED RideMode.NEED 0,
                     mkParticipant 13 4 ParticipationStatus.APPROVED RideMode.NEED 0,
                     mkParticipant 14 5 ParticipationStatus.APPROVED RideMode.NEED 0],
    ride_matches := [], nextId := 20 }

/-- State of the C10 witness: a CANCELED participant (ride fields already
reset to NONE/0) of a capacity-2 event with nobody approved. -/
def c10State : DB :=
  { events := [openEvent (some 2)],
    participants := [mkParticipant 10 1 ParticipationStatus.CANCELED RideMode.NONE 0],
    ride_matches := [], nextId := 20 }

/-!  General list-counting and query-shape lemmas. -/

theorem countP_le_of_imp {α : Type} {p q : α → Bool} :
    ∀ l : List α, (∀ a ∈ l, p a = true → q a = true) →
      l.countP p ≤ l.countP q := by
  intro l
  induction l with
  | nil => intro _; simp
  | cons a t ih =>
      intro h
      have ht := ih (fun b hb => h b (List.mem_cons_of_mem a hb))
      cases hpa : p a with
      | true =>
          have hqa := h a (List.mem_cons_self a t) hpa
          simp only [List.countP_cons, hpa, hqa, if_pos]
          omega
      | false =>
          simp only [List.countP_cons, hpa]
          cases hqa : q a <;> simp <;> omega

theorem countP_map_le_add {α : Type} (f : α → α) (p sel : α → Bool) :
    ∀ l : List α, (∀ a ∈ l, sel a = false → f a = a) →
      (l.map f).countP p ≤ l.countP p + l.countP sel := by
  intro l
  induction l with
  | nil => intro _; simp
  | cons a t ih =>
      intro h
      have ht := ih (fun b hb => h b (List.mem_cons_of_mem a hb))
      rw [List.countP_map] at ht
      cases hsa : sel a with
      | true =>
          simp only [List.map_cons, List.countP_cons, hsa]
          cases hp1 : p (f a) <;> cases hp2 : p a <;> simp <;> omega
      | false =>
          have hfa : f a = a := h a (List.mem_cons_self a t) hsa
          simp only [List.map_cons, List.countP_cons, hfa, hsa]
          cases hp2 : p a <;> simp <;> omega

theorem countP_map_le_of_imp {α : Type} (f : α → α) (p : α → Bool) :
    ∀ l : List α, (∀ a ∈ l, p (f a) = true → p a = true) →
      (l.map f).countP p ≤ l.countP p := by
  intro l
  induction l with
  | nil => intro _; simp
  | cons a t ih =>
      intro h
      have ht := ih (fun b hb => h b (List.mem_cons_of_mem a hb))
      rw [List.countP_map] at ht
      cases hfa : p (f a) with
      | true =>
          have hpa := h a (List.mem_cons_self a t) hfa
          simp only [List.map_cons, List.countP_cons, hfa, hpa, if_pos]
          rw [List.countP_map]
          omega
      | false =>
          simp only [List.map_cons, List.countP_cons, hfa]
          cases hpa : p a <;> simp <;> omega

theorem countP_map_eq {α : Type} (f : α → α) (p : α → Bool) :
    ∀ l : List α, (∀ a ∈ l, p (f a) = p a) →
      (l.map f).countP p = l.countP p := by
  intro l
  induction l with
  | nil => intro _; simp
  | cons a t ih =>
      intro h
      have ht := ih (fun b hb => h b (List.mem_cons_of_mem a hb))
      simp [List.countP_cons, h a (List.mem_cons_self a t), ht]

theorem countP_eq_zero_of_all {α : Type} (p : α → Bool) :
    ∀ l : List α, (∀ a ∈ l, p a = false) → l.countP p = 0 := by
  intro l
  induction l with
  | nil => intro _; simp
  | cons a t ih =>
      intro h
      have := h a (List.mem_cons_self a t)
      simp [List.countP_cons, this, ih (fun b hb => h b (List.mem_cons_of_mem a hb))]

theorem oneOrNone_ok_some {α : Type} {l : List α} {a : α}
    (h : oneOrNone l = .ok (some a)) : l = [a] := by
  cases l with
  | nil => simp [oneOrNone] at h
  | cons x t =>
      cases t with
      | nil =>
          simp [oneOrNone] at h
          simp [h]
      | cons y u => simp [oneOrNone] at h

theorem oneOrNone_ok_none {α : Type} {l : List α}
    (h : oneOrNone l = .ok none) : l = [] := by
  cases l with
  | nil => rfl
  | cons x t =>
      cases t with
      | nil => simp [oneOrNone] at h
      | cons y u => simp [oneOrNone] at h

theorem oneRow_ok {α : Type} {l : List α} {a : α}
    (h : oneRow l = .ok a) : l = [a] := by
  cases l with
  | nil => simp [oneRow] at h
  | cons x t =>
      cases t with
      | nil =>
          simp [oneRow] at h
          simp [h]
      | cons y u => simp [oneRow] at h

theorem filter_singleton_mem {α : Type} {l : List α} {p : α → Bool} {a : α}
    (h : l.filter p = [a]) : a ∈ l ∧ p a = true := by
  have : a ∈ l.filter p := by rw [h]; exact List.mem_singleton.mpr rfl
  exact ⟨(List.mem_filter.mp this).1, (List.mem_filter.mp this).2⟩

theorem filter_singleton_countP {α : Type} {l : List α} {p : α → Bool} {a : α}
    (h : l.filter p = [a]) : l.countP p = 1 := by
  rw [List.countP_eq_length_filter, h]
  rfl

theorem filter_nil_countP {α : Type} {l : List α} {p : α → Bool}
    (h : l.filter p = []) : l.countP p = 0 := by
  rw [List.countP_eq_length_filter, h]
  rfl

theorem filter_singleton_unique {α : Type} {l : List α} {p : α → Bool} {a : α}
    (h : l.filter p = [a]) : ∀ b ∈ l, p b = true → b = a := by
  intro b hb hpb
  have : b ∈ l.filter p := List.mem_filter.mpr ⟨hb, hpb⟩
  rw [h] at this
  exact List.mem_singleton.mp this

theorem filter_nil_all {α : Type} {l : List α} {p : α → Bool}
    (h : l.filter p = []) : ∀ b ∈ l, p b = false := by
  intro b hb
  by_contra hc
  have hpb : p b = true := by
    cases hpb : p b with
    | true => rfl
    | false => exact absurd hpb hc
  have : b ∈ l.filter p := List.mem_filter.mpr ⟨hb, hpb⟩
  rw [h] at this
  cases this

theorem insertByCreated_length (p : Participant) :
    ∀ l : List Participant, (insertByCreated p l).length = l.length + 1 := by
  intro l
  induction l with
  | nil => rfl
  | cons q t ih =>
      unfold insertByCreated
      split
      · simp
      · simp [ih]

theorem sortByCreated_length (l : List Participant) :
    (sortByCreated l).length = l.length := by
  induction l with
  | nil => rfl
  | cons q t ih =>
      unfold sortByCreated at *
      simp [List.foldr_cons, insertByCreated_length, ih]

theorem sortByCreated_singleton {l : List Participant} {a : Participant}
    (h : sortByCreated l = [a]) : l = [a] := by
  cases l with
  | nil => cases h
  | cons x t =>
      cases t with
      | nil =>
          have : sortByCreated [x] = [x] := rfl
          rw [this] at h
          exact h
      | cons y u =>
          have hl := sortByCreated_length (x :: y :: u)
          rw [h] at hl
          simp at hl

/-!  Inversion lemmas: what a successful service call tells us about the
states before and after it. -/

theorem join_event_ok_inv {s : DB} {eid uid : Nat} {rm : RideMode}
    {seats : Option Int} {pa no : Option String} {s' : DB} {pRes : Participant}
    (h : join_event s eid uid rm seats pa no = .ok (s', pRes)) :
    ∃ e st rm2 ns,
      s.events.filter (fun (x : Event) => x.id == eid) = [e] ∧
      resolve_join_status e (count_approved s eid) = .ok st ∧
      normalize_ride rm seats = .ok (rm2, ns) ∧
      s'.events = s.events ∧ s'.ride_matches = s.ride_matches ∧
      pRes.status = st ∧ pRes.event_id = eid ∧ pRes.ride_mode = rm2 ∧
      pRes.seats_offered = ns ∧
      ((s.participants.filter (partSel eid uid) = [] ∧
         pRes.id = s.nextId ∧
         s'.participants = s.participants ++ [pRes] ∧ s'.nextId = s.nextId + 1) ∨
       (∃ p0, s.participants.filter (partSel eid uid) = [p0] ∧
         pRes.id = p0.id ∧ pRes.user_id = p0.user_id ∧
         s'.participants = s.participants.map
           (fun q => if partSel eid uid q then pRes else q) ∧
         s'.nextId = s.nextId)) := by
  unfold join_event at h
  split at h
  · cases h
  · cases h
  · rename_i event hE
    split at h
    · cases h
    · rename_i hnc
      split at h
      · cases h
      · rename_i st hres
        split at h
        · cases h
        · rename_i rm2 ns hnorm
          split at h
          · cases h
          · rename_i hP
            injection h with h1
            injection h1 with hs hp
            refine ⟨event, st, rm2, ns, oneOrNone_ok_some hE, hres, hnorm, ?_⟩
            subst hs
            subst hp
            refine ⟨rfl, rfl, rfl, rfl, rfl, rfl, ?_⟩
            exact Or.inl ⟨oneOrNone_ok_none hP, rfl, rfl, rfl⟩
          · rename_i p0 hP
            injection h with h1
            injection h1 with hs hp
            refine ⟨event, st, rm2, ns, oneOrNone_ok_some hE, hres, hnorm, ?_⟩
            subst hs
            subst hp
            have hp0 := filter_singleton_mem (oneOrNone_ok_some hP)
            have heq : (partSel eid uid p0) = true := hp0.2
            simp only [partSel, Bool.and_eq_true, beq_iff_eq] at heq
            refine ⟨rfl, rfl, rfl, heq.1, rfl, rfl, ?_⟩
            exact Or.inr ⟨p0, oneOrNone_ok_some hP, rfl, rfl, rfl, rfl⟩

theorem leave_event_ok_inv {s : DB} {eid uid : Nat} {s' : DB}
    {pRes : Participant} (h : leave_event s eid uid = .ok (s', pRes)) :
    ∃ p, s.participants.filter (partSel eid uid) = [p] ∧
      pRes = { p with status := ParticipationStatus.CANCELED,
                      ride_mode := RideMode.NONE, seats_offered := 0 } ∧
      s'.events = s.events ∧ s'.nextId = s.nextId ∧
      s'.ride_matches = s.ride_matches.map
        (fun m => if activeMatchOf eid p.id m
                  then { m with status := RideMatchStatus.CANCELED } else m) ∧
      (s'.participants =
          s.participants.map (fun q => if partSel eid uid q then pRes else q) ∨
       ∃ event c,
          s.events.filter (fun (x : Event) => x.id == eid) = [event] ∧
          event.capacity = some c ∧
          ((s.participants.map
              (fun q => if partSel eid uid q then pRes else q)).countP
            (pendingSel eid) = 1) ∧
          ((s.participants.map
              (fun q => if partSel eid uid q then pRes else q)).countP
            (approvedSel eid) < c) ∧
          s'.participants =
            (s.participants.map
              (fun q => if partSel eid uid q then pRes else q)).map
              (fun q => if pendingSel eid q
                        then { q with status := ParticipationStatus.APPROVED }
                        else q)) := by
  unfold leave_event at h
  split at h
  · cases h
  · cases h
  · rename_i p hP
    have hfil := oneOrNone_ok_some hP
    simp only [] at h
    split at h
    · cases h
    · rename_i event hErow
      have hEfil := oneRow_ok hErow
      split at h
      · -- capacity = none: no promotion
        injection h with h1
        injection h1 with hs hp
        subst hs; subst hp
        exact ⟨p, hfil, rfl, rfl, rfl, rfl, Or.inl rfl⟩
      · rename_i c hcap
        split at h
        · -- policy matches and c nonzero
          rename_i hpol
          split at h
          · -- under capacity: promotion attempt
            rename_i hlt
            split at h
            · cases h
            · -- no pending participant
              injection h with h1
              injection h1 with hs hp
              subst hs; subst hp
              exact ⟨p, hfil, rfl, rfl, rfl, rfl, Or.inl rfl⟩
            · -- exactly one pending participant: promote it
              rename_i x hx
              have hone := sortByCreated_singleton (oneOrNone_ok_some hx)
              injection h with h1
              injection h1 with hs hp
              subst hs; subst hp
              refine ⟨p, hfil, rfl, rfl, rfl, rfl, Or.inr ⟨event, c, hEfil, hcap, ?_, hlt, rfl⟩⟩
              exact filter_singleton_countP hone
          · -- not under capacity
            injection h with h1
            injection h1 with hs hp
            subst hs; subst hp
            exact ⟨p, hfil, rfl, rfl, rfl, rfl, Or.inl rfl⟩
        · -- policy or capacity gate fails
          injection h with h1
          injection h1 with hs hp
          subst hs; subst hp
          exact ⟨p, hfil, rfl, rfl, rfl, rfl, Or.inl rfl⟩

theorem update_my_participation_ok_inv {s : DB} {eid uid : Nat}
    {rmArg : Option RideMode} {seatsArg : Option Int} {pa no : Option String}
    {s' : DB} {pRes : Participant}
    (h : update_my_participation s eid uid rmArg seatsArg pa no = .ok (s', pRes)) :
    ∃ p nm ns,
      s.participants.filter (partSel eid uid) = [p] ∧
      (p.status = ParticipationStatus.APPROVED ∨
        p.status = ParticipationStatus.PENDING) ∧
      normalize_ride (match rmArg with | some m => m | none => p.ride_mode)
        (some (match seatsArg with
               | some n => n | none => (p.seats_offered : Int))) = .ok (nm, ns) ∧
      pRes.id = p.id ∧ pRes.event_id = p.event_id ∧ pRes.user_id = p.user_id ∧
      pRes.status = p.status ∧ pRes.ride_mode = nm ∧ pRes.seats_offered = ns ∧
      s'.events = s.events ∧ s'.nextId = s.nextId ∧
      s'.participants = s.participants.map
        (fun q => if partSel eid uid q then pRes else q) ∧
      ((p.ride_mode = nm ∧ s'.ride_matches = s.ride_matches) ∨
       (p.ride_mode ≠ nm ∧ s'.ride_matches = s.ride_matches.map
          (fun m => if activeMatchOf eid p.id m
                    then { m with status := RideMatchStatus.CANCELED }
                    else m))) := by
  unfold update_my_participation at h
  split at h
  · cases h
  · cases h
  · rename_i p hP
    have hfil := oneOrNone_ok_some hP
    split at h
    · cases h
    · rename_i hstat
      have hstat2 : p.status = ParticipationStatus.APPROVED ∨
          p.status = ParticipationStatus.PENDING := by
        by_cases ha : p.status = ParticipationStatus.APPROVED
        · exact Or.inl ha
        · by_cases hp2 : p.status = ParticipationStatus.PENDING
          · exact Or.inr hp2
          · exact absurd ⟨ha, hp2⟩ hstat
      simp only [] at h
      split at h
      · cases h
      · rename_i nm ns hnorm
        by_cases hm : p.ride_mode = nm
        · rw [if_neg (by simp [hm])] at h
          injection h with h1
          injection h1 with hs hp
          subst hs; subst hp
          exact ⟨p, nm, ns, hfil, hstat2, hnorm, rfl, rfl, rfl, rfl, rfl, rfl,
            rfl, rfl, rfl, Or.inl ⟨hm, rfl⟩⟩
        · rw [if_pos (by simp [hm])] at h
          injection h with h1
          injection h1 with hs hp
          subst hs; subst hp
          exact ⟨p, nm, ns, hfil, hstat2, hnorm, rfl, rfl, rfl, rfl, rfl, rfl,
            rfl, rfl, rfl, Or.inr ⟨hm, rfl⟩⟩

theorem set_participant_status_ok_inv {s : DB} {eid oid pid : Nat}
    {target : ParticipationStatus} {s' : DB} {pRes : Participant}
    (h : set_participant_status s eid oid pid target = .ok (s', pRes)) :
    (target = ParticipationStatus.APPROVED ∨
      target = ParticipationStatus.REJECTED) ∧
    ∃ e p,
      s.events.filter (fun (x : Event) => x.id == eid) = [e] ∧
      e.created_by = oid ∧
      s.participants.filter
        (fun (q : Participant) => q.id == pid && q.event_id == eid) = [p] ∧
      (target = ParticipationStatus.APPROVED →
        ∀ c, e.capacity = some c → count_approved s eid < c) ∧
      pRes = { p with status := target } ∧
      s'.events = s.events ∧ s'.ride_matches = s.ride_matches ∧
      s'.nextId = s.nextId ∧
      s'.participants = s.participants.map
        (fun q => if q.id == pid && q.event_id == eid then pRes else q) := by
  unfold set_participant_status at h
  split at h
  · cases h
  · rename_i htgt
    have htgt2 : target = ParticipationStatus.APPROVED ∨
        target = ParticipationStatus.REJECTED := by
      by_cases ha : target = ParticipationStatus.APPROVED
      · exact Or.inl ha
      · by_cases hr : target = ParticipationStatus.REJECTED
        · exact Or.inr hr
        · exact absurd ⟨ha, hr⟩ htgt
    split at h
    · cases h
    · cases h
    · rename_i e hE
      split at h
      · cases h
      · rename_i hown
        split at h
        · cases h
        · cases h
        · rename_i p hPfil
          have hown2 : e.created_by = oid := by
            by_contra hc
            exact hown hc
          simp only [] at h
          split at h
          · -- target is APPROVED: the capacity gate runs
            rename_i hta
            split at h
            · -- capacity is set
              rename_i c hcap
              split at h
              · cases h
              · rename_i hnotfull
                injection h with h1
                injection h1 with hs hp
                subst hs; subst hp
                refine ⟨htgt2, e, p, oneOrNone_ok_some hE, hown2,
                  oneOrNone_ok_some hPfil, ?_, rfl, rfl, rfl, rfl, rfl⟩
                intro _ c2 hc2
                rw [hcap] at hc2
                injection hc2 with hc3
                subst hc3
                omega
            · -- capacity is unset
              rename_i hcap
              injection h with h1
              injection h1 with hs hp
              subst hs; subst hp
              refine ⟨htgt2, e, p, oneOrNone_ok_some hE, hown2,
                oneOrNone_ok_some hPfil, ?_, rfl, rfl, rfl, rfl, rfl⟩
              intro _ c2 hc2
              rw [hcap] at hc2
              cases hc2
          · -- target is REJECTED: no capacity gate
            rename_i hnta
            injection h with h1
            injection h1 with hs hp
            subst hs; subst hp
            refine ⟨htgt2, e, p, oneOrNone_ok_some hE, hown2,
              oneOrNone_ok_some hPfil, ?_, rfl, rfl, rfl, rfl, rfl⟩
            intro hta
            exact absurd hta hnta

theorem ensure_compatible_and_seat_ok_inv {s : DB} {eid dpid rpid : Nat}
    (h : ensure_compatible_and_seat s eid dpid rpid = .ok ()) :
    ∃ d r,
      s.participants.filter
        (fun (q : Participant) => q.id == dpid && q.event_id == eid) = [d] ∧
      s.participants.filter
        (fun (q : Participant) => q.id == rpid && q.event_id == eid) = [r] ∧
      d.id ≠ r.id ∧
      d.status = ParticipationStatus.APPROVED ∧
      r.status = ParticipationStatus.APPROVED ∧
      d.ride_mode = RideMode.OFFER ∧ r.ride_mode = RideMode.NEED ∧
      accepted_count s eid d.id < d.seats_offered := by
  unfold ensure_compatible_and_seat at h
  split at h
  · cases h
  · rename_i dOpt hD
    split at h
    · cases h
    · rename_i rOpt hR
      split at h
      · cases h
      · rename_i driver
        split at h
        · cases h
        · rename_i rider
          split at h
          · cases h
          · rename_i hne
            split at h
            · cases h
            · rename_i hst
              split at h
              · cases h
              · rename_i hdm
                split at h
                · cases h
                · rename_i hrm
                  split at h
                  · cases h
                  · rename_i hseat
                    have hst2 : driver.status = ParticipationStatus.APPROVED ∧
                        rider.status = ParticipationStatus.APPROVED := by
                      by_cases h1 : driver.status = ParticipationStatus.APPROVED
                      · by_cases h2 : rider.status = ParticipationStatus.APPROVED
                        · exact ⟨h1, h2⟩
                        · exact absurd (Or.inr h2) hst
                      · exact absurd (Or.inl h1) hst
                    refine ⟨driver, rider, oneOrNone_ok_some hD,
                      oneOrNone_ok_some hR, hne, hst2.1, hst2.2, ?_, ?_, by omega⟩
                    · by_cases hx : driver.ride_mode = RideMode.OFFER
                      · exact hx
                      · exact absurd hx hdm
                    · by_cases hx : rider.ride_mode = RideMode.NEED
                      · exact hx
                      · exact absurd hx hrm

theorem create_match_ok_inv {s : DB} {eid cb dpid rpid : Nat} {s' : DB}
    {mRes : RideMatch}
    (h : create_match s eid cb dpid rpid = .ok (s', mRes)) :
    ensure_compatible_and_seat s eid dpid rpid = .ok () ∧
    s'.events = s.events ∧ s'.participants = s.participants ∧
    mRes.status = RideMatchStatus.PROPOSED ∧
    mRes.driver_participant_id = dpid ∧ mRes.id = s.nextId ∧
    mRes.event_id = eid ∧
    s'.ride_matches = s.ride_matches ++ [mRes] ∧ s'.nextId = s.nextId + 1 := by
  unfold create_match at h
  split at h
  · cases h
  · rename_i u hok
    injection h with h1
    injection h1 with hs hm
    subst hs; subst hm
    refine ⟨?_, rfl, rfl, rfl, rfl, rfl, rfl, rfl, rfl⟩
    cases u
    exact hok

theorem update_match_status_ok_inv {s : DB} {mid uid : Nat}
    {next : RideMatchStatus} {s' : DB} {mRes : RideMatch}
    (h : update_match_status s mid uid next = .ok (s', mRes)) :
    ∃ m,
      s.ride_matches.filter (fun (x : RideMatch) => x.id == mid) = [m] ∧
      mRes = { m with status := next } ∧
      s'.events = s.events ∧ s'.participants = s.participants ∧
      s'.nextId = s.nextId ∧
      s'.ride_matches = s.ride_matches.map
        (fun x => if x.id == mid then mRes else x) ∧
      (next = RideMatchStatus.ACCEPTED →
        ensure_compatible_and_seat s m.event_id m.driver_participant_id
          m.rider_participant_id = .ok ()) := by
  unfold update_match_status at h
  split at h
  · cases h
  · split at h
    · cases h
    · cases h
    · rename_i m hM
      split at h
      · cases h
      · rename_i dOpt hD
        split at h
        · cases h
        · rename_i rOpt hR
          simp only [] at h
          split at h
          · cases h
          · rename_i hallow
            split at h
            · rename_i hacc
              split at h
              · cases h
              · rename_i u hok
                injection h with h1
                injection h1 with hs hm
                subst hs; subst hm
                refine ⟨m, oneOrNone_ok_some hM, rfl, rfl, rfl, rfl, rfl, ?_⟩
                intro
                cases u
                exact hok
            · rename_i hnacc
              injection h with h1
              injection h1 with hs hm
              subst hs; subst hm
              refine ⟨m, oneOrNone_ok_some hM, rfl, rfl, rfl, rfl, rfl, ?_⟩
              intro hacc
              exact absurd hacc hnacc

/-- A join can only resolve to APPROVED while the event is strictly under
its capacity. -/
theorem resolve_join_status_approved_lt {e : Event} {app c : Nat}
    (h : resolve_join_status e app = .ok ParticipationStatus.APPROVED)
    (hc : e.capacity = some c) : app < c := by
  unfold resolve_join_status at h
  split at h
  · cases h
  · split at h
    · -- OPEN
      split at h
      · cases h
      · rename_i hfull
        unfold is_full at hfull
        rw [hc] at hfull
        simp at hfull
        omega
    · -- APPROVAL resolves to PENDING, never APPROVED
      injection h with h2
      cases h2
    · -- OPEN_UNTIL_CAPACITY_THEN_APPROVAL
      injection h with h2
      by_cases hfull : is_full e app = true
      · rw [if_pos hfull] at h2
        cases h2
      · unfold is_full at hfull
        rw [hc] at hfull
        simp at hfull
        omega

/-- No operation ever modifies the events table. -/
theorem applyOp_events (s : DB) (op : Op) : (applyOp s op).events = s.events := by
  cases op with
  | join eid uid rm seats pa no =>
      simp only [applyOp]
      cases hrun : join_event s eid uid rm seats pa no with
      | error e => rfl
      | ok v =>
          obtain ⟨s2, p2⟩ := v
          obtain ⟨e, st, rm2, ns, _, _, _, hev, _⟩ := join_event_ok_inv hrun
          exact hev
  | leave eid uid =>
      simp only [applyOp]
      cases hrun : leave_event s eid uid with
      | error e => rfl
      | ok v =>
          obtain ⟨s2, p2⟩ := v
          obtain ⟨p, _, _, hev, _⟩ := leave_event_ok_inv hrun
          exact hev
  | updateMe eid uid rm seats pa no =>
      simp only [applyOp]
      cases hrun : update_my_participation s eid uid rm seats pa no with
      | error e => rfl
      | ok v =>
          obtain ⟨s2, p2⟩ := v
          obtain ⟨p, nm, ns, _, _, _, _, _, _, _, _, _, hev, _⟩ :=
            update_my_participation_ok_inv hrun
          exact hev
  | setStatus eid oid pid target =>
      simp only [applyOp]
      cases hrun : set_participant_status s eid oid pid target with
      | error e => rfl
      | ok v =>
          obtain ⟨s2, p2⟩ := v
          obtain ⟨_, e, p, _, _, _, _, _, hev, _⟩ :=
            set_participant_status_ok_inv hrun
          exact hev
  | createMatch eid cb dpid rpid =>
      simp only [applyOp]
      cases hrun : create_match s eid cb dpid rpid with
      | error e => rfl
      | ok v =>
          obtain ⟨s2, m2⟩ := v
          obtain ⟨_, hev, _⟩ := create_match_ok_inv hrun
          exact hev
  | updateMatch mid uid next =>
      simp only [applyOp]
      cases hrun : update_match_status s mid uid next with
      | error e => rfl
      | ok v =>
          obtain ⟨s2, m2⟩ := v
          obtain ⟨m, _, _, hev, _⟩ := update_match_status_ok_inv hrun
          exact hev

theorem count_approved_eq (s : DB) (eid : Nat) :
    count_approved s eid = s.participants.countP (approvedSel eid) := rfl

theorem approvedSel_iff {eid : Nat} {q : Participant} :
    approvedSel eid q = true ↔
      q.event_id = eid ∧ q.status = ParticipationStatus.APPROVED := by
  simp [approvedSel]

theorem partSel_iff {eid uid : Nat} {q : Participant} :
    partSel eid uid q = true ↔ q.event_id = eid ∧ q.user_id = uid := by
  simp [partSel]

theorem pendingSel_iff {eid : Nat} {q : Participant} :
    pendingSel eid q = true ↔
      q.event_id = eid ∧ q.status = ParticipationStatus.PENDING := by
  simp [pendingSel]

/-- Single-step preservation of the capacity bound of claim C1: if every
event row with id `eid` carries capacity `C` and at most `C` participants
of `eid` are APPROVED, the same holds after any one operation. -/
theorem count_approved_applyOp_le (s : DB) (op : Op) (eid C : Nat)
    (hcap : ∀ e ∈ s.events, e.id = eid → e.capacity = some C)
    (h : count_approved s eid ≤ C) :
    count_approved (applyOp s op) eid ≤ C := by
  rw [count_approved_eq] at h
  cases op with
  | join jeid uid rm seats pa no =>
      simp only [applyOp]
      cases hrun : join_event s jeid uid rm seats pa no with
      | error e => exact h
      | ok v =>
          obtain ⟨s2, p2⟩ := v
          obtain ⟨e, st, rm2, ns, hfil, hres, hnorm, hev, hmat, hstat, heid,
            hrm, hns, hcases⟩ := join_event_ok_inv hrun
          show count_approved s2 eid ≤ C
          by_cases hap : approvedSel eid p2 = true
          · -- the written row counts towards eid
            obtain ⟨hape, haps⟩ := approvedSel_iff.mp hap
            have hje : jeid = eid := by rw [← heid]; exact hape
            have hst2 : st = ParticipationStatus.APPROVED := by
              rw [← hstat]; exact haps
            have hemem := filter_singleton_mem hfil
            have heid2 : e.id = eid := by
              have h2 := hemem.2
              simp only [beq_iff_eq] at h2
              rw [h2, hje]
            have hecap : e.capacity = some C := hcap e hemem.1 heid2
            have hlt : count_approved s jeid < C :=
              resolve_join_status_approved_lt (hst2 ▸ hres) hecap
            rw [hje, count_approved_eq] at hlt
            rcases hcases with ⟨hfilnil, hid, hparts, hnext⟩ |
              ⟨p0, hfil0, hid, huid, hparts, hnext⟩
            · rw [count_approved_eq, hparts, List.countP_append]
              have hone : List.countP (approvedSel eid) [p2] = 1 := by
                simp [List.countP_cons, hap]
              omega
            · rw [count_approved_eq, hparts]
              have hside : ∀ a ∈ s.participants, partSel jeid uid a = false →
                  (fun q => if partSel jeid uid q = true then p2 else q) a = a := by
                intro a _ hsel
                simp [hsel]
              have hb := countP_map_le_add
                (fun q => if partSel jeid uid q = true then p2 else q)
                (approvedSel eid) (partSel jeid uid) s.participants hside
              have hone := filter_singleton_countP hfil0
              omega
          · -- the written row does not count towards eid
            have hap2 : approvedSel eid p2 = false := by
              cases hx : approvedSel eid p2 with
              | true => exact absurd hx hap
              | false => rfl
            rcases hcases with ⟨hfilnil, hid, hparts, hnext⟩ |
              ⟨p0, hfil0, hid, huid, hparts, hnext⟩
            · rw [count_approved_eq, hparts, List.countP_append]
              have hzero : List.countP (approvedSel eid) [p2] = 0 := by
                simp [List.countP_cons, hap2]
              omega
            · rw [count_approved_eq, hparts]
              refine le_trans (countP_map_le_of_imp _ _ _ ?_) h
              intro a _ hfa
              by_cases hsel : partSel jeid uid a = true
              · rw [if_pos hsel] at hfa
                rw [hfa] at hap2
                cases hap2
              · rw [if_neg hsel] at hfa
                exact hfa
  | leave lid uid =>
      simp only [applyOp]
      cases hrun : leave_event s lid uid with
      | error e => exact h
      | ok v =>
          obtain ⟨s2, p2⟩ := v
          obtain ⟨p, hfil, hpres, hev, hnext, hmat, hdisj⟩ :=
            leave_event_ok_inv hrun
          show count_approved s2 eid ≤ C
          have hstep1 : (s.participants.map
              (fun q => if partSel lid uid q = true then p2 else q)).countP
              (approvedSel eid) ≤ s.participants.countP (approvedSel eid) := by
            refine countP_map_le_of_imp _ _ _ ?_
            intro a _ hfa
            by_cases hsel : partSel lid uid a = true
            · rw [if_pos hsel] at hfa
              rw [hpres] at hfa
              simp [approvedSel] at hfa
            · rw [if_neg hsel] at hfa
              exact hfa
          rcases hdisj with hparts | ⟨event, c, hEfil, hecap, hpend, hlt, hparts⟩
          · rw [count_approved_eq, hparts]
            exact le_trans hstep1 h
          · by_cases hle : lid = eid
            · subst hle
              have hemem := filter_singleton_mem hEfil
              have heid2 : event.id = lid := by
                have h2 := hemem.2
                simp only [beq_iff_eq] at h2
                exact h2
              have hecap2 : event.capacity = some C := hcap event hemem.1 heid2
              rw [hecap2] at hecap
              injection hecap with hc
              subst hc
              rw [count_approved_eq, hparts]
              have hside : ∀ a ∈ (s.participants.map
                  (fun q => if partSel lid uid q = true then p2 else q)),
                  pendingSel lid a = false →
                  (fun q => if pendingSel lid q = true
                            then { q with status := ParticipationStatus.APPROVED }
                            else q) a = a := by
                intro a _ hsel
                simp [hsel]
              have hb := countP_map_le_add
                (fun q => if pendingSel lid q = true
                          then { q with status := ParticipationStatus.APPROVED }
                          else q)
                (approvedSel lid) (pendingSel lid)
                (s.participants.map
                  (fun q => if partSel lid uid q = true then p2 else q)) hside
              omega
            · rw [count_approved_eq, hparts]
              have heq := countP_map_eq
                (fun q => if pendingSel lid q = true
                          then { q with status := ParticipationStatus.APPROVED }
                          else q)
                (approvedSel eid)
                (s.participants.map
                  (fun q => if partSel lid uid q = true then p2 else q)) ?side
              case side =>
                intro a _
                simp only []
                by_cases hsel : pendingSel lid a = true
                · rw [if_pos hsel]
                  obtain ⟨hae, _⟩ := pendingSel_iff.mp hsel
                  have h1 : approvedSel eid { a with
                      status := ParticipationStatus.APPROVED } = false := by
                    simp [approvedSel, hae, hle]
                  have h2 : approvedSel eid a = false := by
                    simp [approvedSel, hae, hle]
                  rw [h1, h2]
                · rw [if_neg hsel]
              rw [heq]
              exact le_trans hstep1 h
  | updateMe ueid uid rmA seatsA pa no =>
      simp only [applyOp]
      cases hrun : update_my_participation s ueid uid rmA seatsA pa no with
      | error e => exact h
      | ok v =>
          obtain ⟨s2, p2⟩ := v
          obtain ⟨p, nm, ns, hfil, hsts, hnorm, hid, heid2, huid, hstp, hrmp,
            hnsp, hev, hnext, hparts, hmd⟩ := update_my_participation_ok_inv hrun
          show count_approved s2 eid ≤ C
          rw [count_approved_eq, hparts]
          have heq := countP_map_eq
            (fun q => if partSel ueid uid q = true then p2 else q)
            (approvedSel eid) s.participants ?side
          case side =>
            intro a ha
            simp only []
            by_cases hsel : partSel ueid uid a = true
            · rw [if_pos hsel]
              have hap := filter_singleton_unique hfil a ha hsel
              rw [hap]
              unfold approvedSel
              rw [heid2, hstp]
            · rw [if_neg hsel]
          rw [heq]
          exact h
  | setStatus seid oid pid target =>
      simp only [applyOp]
      cases hrun : set_participant_status s seid oid pid target with
      | error e => exact h
      | ok v =>
          obtain ⟨s2, p2⟩ := v
          obtain ⟨htgt, e, p, hEfil, hown, hPfil, hgate, hpres, hev, hmat,
            hnext, hparts⟩ := set_participant_status_ok_inv hrun
          show count_approved s2 eid ≤ C
          by_cases hap : approvedSel eid p2 = true
          · obtain ⟨hape, haps⟩ := approvedSel_iff.mp hap
            have hpe : p.event_id = seid := by
              have hm := filter_singleton_mem hPfil
              have h2 := hm.2
              simp only [Bool.and_eq_true, beq_iff_eq] at h2
              exact h2.2
            have hse : seid = eid := by
              rw [← hpe]
              rw [hpres] at hape
              exact hape
            have hta : target = ParticipationStatus.APPROVED := by
              rw [hpres] at haps
              exact haps
            have hemem := filter_singleton_mem hEfil
            have heid2 : e.id = eid := by
              have h2 := hemem.2
              simp only [beq_iff_eq] at h2
              rw [h2, hse]
            have hecap : e.capacity = some C := hcap e hemem.1 heid2
            have hlt := hgate hta C hecap
            rw [count_approved_eq] at hlt
            rw [count_approved_eq, hparts]
            have hside : ∀ a ∈ s.participants,
                (fun (q : Participant) => q.id == pid && q.event_id == seid) a
                  = false →
                (fun q => if (q.id == pid && q.event_id == seid) = true
                          then p2 else q) a = a := by
              intro a _ hsel
              simp [hsel]
            have hb := countP_map_le_add
              (fun q => if (q.id == pid && q.event_id == seid) = true
                        then p2 else q)
              (approvedSel eid)
              (fun (q : Participant) => q.id == pid && q.event_id == seid)
              s.participants hside
            have hone := filter_singleton_countP hPfil
            rw [hse] at hlt
            omega
          · have hap2 : approvedSel eid p2 = false := by
              cases hx : approvedSel eid p2 with
              | true => exact absurd hx hap
              | false => rfl
            rw [count_approved_eq, hparts]
            refine le_trans (countP_map_le_of_imp _ _ _ ?_) h
            intro a _ hfa
            by_cases hsel : (a.id == pid && a.event_id == seid) = true
            · rw [if_pos hsel] at hfa
              rw [hfa] at hap2
              cases hap2
            · rw [if_neg hsel] at hfa
              exact hfa
  | createMatch ceid cb dpid rpid =>
      simp only [applyOp]
      cases hrun : create_match s ceid cb dpid rpid with
      | error e => exact h
      | ok v =>
          obtain ⟨s2, m2⟩ := v
          obtain ⟨_, _, hparts, _⟩ := create_match_ok_inv hrun
          show count_approved s2 eid ≤ C
          rw [count_approved_eq, hparts]
          exact h
  | updateMatch mid uid next =>
      simp only [applyOp]
      cases hrun : update_match_status s mid uid next with
      | error e => exact h
      | ok v =>
          obtain ⟨s2, m2⟩ := v
          obtain ⟨m, _, _, _, hparts, _⟩ := update_match_status_ok_inv hrun
          show count_approved s2 eid ≤ C
          rw [count_approved_eq, hparts]
          exact h

/-- C1: for every event with capacity C, in every state reachable by any
sequence of the operations join, leave, update_my_participation,
set_participant_status, create_match and update_match_status from a
state where the APPROVED-participant count of that event is at most C,
the number of APPROVED participants of that event never exceeds C. -/
theorem approved_count_never_exceeds_capacity
    (s0 : DB) (ops : List Op) (eid C : Nat)
    (hcap : ∀ e ∈ s0.events, e.id = eid → e.capacity = some C)
    (h0 : count_approved s0 eid ≤ C) :
    count_approved (runOps s0 ops) eid ≤ C := by
  induction ops generalizing s0 with
  | nil => exact h0
  | cons op ops ih =>
      have hcap2 : ∀ e ∈ (applyOp s0 op).events, e.id = eid →
          e.capacity = some C := by
        rw [applyOp_events]
        exact hcap
      exact ih (applyOp s0 op) hcap2
        (count_approved_applyOp_le s0 op eid C hcap h0)

/-- Witness for C1: a capacity-2 OPEN event, three successive joins; the
hypotheses hold and the approved count stays at most 2. -/
theorem approved_count_never_exceeds_capacity_witness :
    (∀ e ∈ w1State.events, e.id = 1 → e.capacity = some 2) ∧
    count_approved w1State 1 ≤ 2 ∧
    count_approved (runOps w1State w1Ops) 1 ≤ 2 :=
  ⟨by decide, by decide,
    approved_count_never_exceeds_capacity w1State w1Ops 1 2
      (by decide) (by decide)⟩

/-- On a known non-canceled event row, `join_event` runs its core. -/
theorem join_event_after_event (s : DB) (eid uid : Nat) (rm : RideMode)
    (seats : Option Int) (pa no : Option String) (e : Event)
    (he : oneOrNone (s.events.filter (fun (x : Event) => x.id == eid)) =
      .ok (some e))
    (hnc : e.status ≠ EventStatus.CANCELED) :
    join_event s eid uid rm seats pa no =
      join_event_core s eid uid e rm seats pa no := by
  unfold join_event
  split
  · rename_i e2 heq
    rw [he] at heq
    cases heq
  · rename_i heq
    rw [he] at heq
    cases heq
  · rename_i event heq
    rw [he] at heq
    injection heq with h2
    injection h2 with h3
    subst h3
    rw [if_neg hnc]
    rfl

/-- Under a PUBLISHED event the status of a join resolves purely from
policy and fullness. -/
theorem resolve_join_status_published {e : Event} {app : Nat}
    (hpub : e.status = EventStatus.PUBLISHED) :
    resolve_join_status e app =
      match e.join_policy with
      | .OPEN =>
          if is_full e app then .error (.http 400 "Event is full")
          else .ok ParticipationStatus.APPROVED
      | .APPROVAL => .ok ParticipationStatus.PENDING
      | .OPEN_UNTIL_CAPACITY_THEN_APPROVAL =>
          .ok (if is_full e app then ParticipationStatus.PENDING
               else ParticipationStatus.APPROVED) := by
  unfold resolve_join_status
  rw [if_neg (fun hx => hx hpub)]

/-- On an unpublished event the status resolution raises at once. -/
theorem resolve_join_status_not_published {e : Event} {app : Nat}
    (h : e.status ≠ EventStatus.PUBLISHED) :
    resolve_join_status e app = .error (.http 400 "Event is not published") := by
  unfold resolve_join_status
  rw [if_pos h]

/-- A resolution error propagates: the core returns it unchanged. -/
theorem join_event_core_resolve_error (s : DB) (eid uid : Nat) (e : Event)
    (rm : RideMode) (seats : Option Int) (pa no : Option String) (err : Err)
    (hres : resolve_join_status e (count_approved s eid) = .error err) :
    join_event_core s eid uid e rm seats pa no = .error err := by
  unfold join_event_core
  split
  · rename_i e2 heq
    rw [hres] at heq
    injection heq with h2
    rw [h2]
  · rename_i st heq
    rw [hres] at heq
    cases heq

/-- When resolution and normalization succeed and the participant lookup
does not raise, the join succeeds and writes exactly the resolved
status. -/
theorem join_event_core_status (s : DB) (eid uid : Nat) (e : Event)
    (rm : RideMode) (seats : Option Int) (pa no : Option String)
    (st : ParticipationStatus) (v : RideMode × Nat) (po : Option Participant)
    (hres : resolve_join_status e (count_approved s eid) = .ok st)
    (hnorm : normalize_ride rm seats = .ok v)
    (hpl : oneOrNone (s.participants.filter (partSel eid uid)) = .ok po) :
    joinedStatus (join_event_core s eid uid e rm seats pa no) = some st := by
  obtain ⟨rm2, ns⟩ := v
  unfold join_event_core
  split
  · rename_i e2 heq
    rw [hres] at heq
    cases heq
  · rename_i st2 heq
    rw [hres] at heq
    injection heq with h2
    subst h2
    split
    · rename_i e2 heq2
      rw [hnorm] at heq2
      cases heq2
    · rename_i rm3 ns3 heq2
      rw [hnorm] at heq2
      injection heq2 with h3
      injection h3 with h4 h5
      subst h4
      subst h5
      split
      · rename_i e2 heq3
        rw [hpl] at heq3
        cases heq3
      · rfl
      · rfl

/-- C3: for every join call on a PUBLISHED event whose ride fields pass
normalization, the resulting participant status is determined by the
join policy and fullness: under OPEN the call fails with the Capacity
error when full and otherwise yields APPROVED; under APPROVAL it always
yields PENDING; under OPEN_UNTIL_CAPACITY_THEN_APPROVAL it yields
PENDING when full and APPROVED otherwise. -/
theorem join_status_by_policy
    (s : DB) (eid uid : Nat) (rm : RideMode) (seats : Option Int)
    (pa no : Option String) (e : Event) (v : RideMode × Nat)
    (po : Option Participant)
    (he : oneOrNone (s.events.filter (fun (x : Event) => x.id == eid)) =
      .ok (some e))
    (hpub : e.status = EventStatus.PUBLISHED)
    (hnorm : normalize_ride rm seats = .ok v)
    (hpl : oneOrNone (s.participants.filter (partSel eid uid)) = .ok po) :
    (e.join_policy = EventJoinPolicy.OPEN →
      (is_full e (count_approved s eid) = true →
        join_event s eid uid rm seats pa no =
          .error (.http 400 "Event is full")) ∧
      (is_full e (count_approved s eid) = false →
        joinedStatus (join_event s eid uid rm seats pa no) =
          some ParticipationStatus.APPROVED)) ∧
    (e.join_policy = EventJoinPolicy.APPROVAL →
      joinedStatus (join_event s eid uid rm seats pa no) =
        some ParticipationStatus.PENDING) ∧
    (e.join_policy = EventJoinPolicy.OPEN_UNTIL_CAPACITY_THEN_APPROVAL →
      (is_full e (count_approved s eid) = true →
        joinedStatus (join_event s eid uid rm seats pa no) =
          some ParticipationStatus.PENDING) ∧
      (is_full e (count_approved s eid) = false →
        joinedStatus (join_event s eid uid rm seats pa no) =
          some ParticipationStatus.APPROVED)) := by
  have hnc : e.status ≠ EventStatus.CANCELED := by
    rw [hpub]
    intro hx
    cases hx
  have hcore := join_event_after_event s eid uid rm seats pa no e he hnc
  rw [hcore]
  refine ⟨?_, ?_, ?_⟩
  · intro hpol
    constructor
    · intro hfull
      have hres : resolve_join_status e (count_approved s eid) =
          .error (.http 400 "Event is full") := by
        rw [resolve_join_status_published hpub, hpol, hfull]
        rfl
      exact join_event_core_resolve_error s eid uid e rm seats pa no _ hres
    · intro hfull
      have hres : resolve_join_status e (count_approved s eid) =
          .ok ParticipationStatus.APPROVED := by
        rw [resolve_join_status_published hpub, hpol, hfull]
        rfl
      exact join_event_core_status s eid uid e rm seats pa no _ v po
        hres hnorm hpl
  · intro hpol
    have hres : resolve_join_status e (count_approved s eid) =
        .ok ParticipationStatus.PENDING := by
      rw [resolve_join_status_published hpub, hpol]
    exact join_event_core_status s eid uid e rm seats pa no _ v po
      hres hnorm hpl
  · intro hpol
    constructor
    · intro hfull
      have hres : resolve_join_status e (count_approved s eid) =
          .ok ParticipationStatus.PENDING := by
        rw [resolve_join_status_published hpub, hpol, hfull]
        rfl
      exact join_event_core_status s eid uid e rm seats pa no _ v po
        hres hnorm hpl
    · intro hfull
      have hres : resolve_join_status e (count_approved s eid) =
          .ok ParticipationStatus.APPROVED := by
        rw [resolve_join_status_published hpub, hpol, hfull]
        rfl
      exact join_event_core_status s eid uid e rm seats pa no _ v po
        hres hnorm hpl

/-- Witness for C3: on an OPEN_UNTIL_CAPACITY_THEN_APPROVAL event with
capacity 1 and one APPROVED participant, a new join yields PENDING. -/
theorem join_status_by_policy_witness :
    oneOrNone (c3State.events.filter (fun (x : Event) => x.id == 1)) =
      .ok (some (openUntilEvent (some 1))) ∧
    (openUntilEvent (some 1)).status = EventStatus.PUBLISHED ∧
    normalize_ride RideMode.NONE none = .ok (RideMode.NONE, 0) ∧
    oneOrNone (c3State.participants.filter (partSel 1 2)) = .ok none ∧
    is_full (openUntilEvent (some 1)) (count_approved c3State 1) = true ∧
    joinedStatus (join_event c3State 1 2 RideMode.NONE none none none) =
      some ParticipationStatus.PENDING := by
  refine ⟨rfl, rfl, rfl, rfl, by decide, ?_⟩
  exact ((join_status_by_policy c3State 1 2 RideMode.NONE none none none
    (openUntilEvent (some 1)) (RideMode.NONE, 0) none rfl rfl rfl rfl).2.2
    rfl).1 (by decide)

/-- C5 (code bug): on an OPEN_UNTIL_CAPACITY_THEN_APPROVAL event with
capacity 1, one APPROVED participant and two PENDING participants, the
leave call of the APPROVED participant fails with MultipleResultsFound
instead of promoting the earliest PENDING participant: the promotion
query fetches every PENDING row of the event with one_or_none and no
limit.  With a single PENDING participant the promotion happens as the
spec describes. -/
theorem leave_two_pending_multiple_results :
    c5State.participants.countP (pendingSel 1) = 2 ∧
    count_approved c5State 1 = 1 ∧
    leave_event c5State 1 1 = .error Err.multipleResultsFound ∧
    (leave_event c5StateOne 1 1).map
      (fun r => (findParticipant r.1 11).map Participant.status) =
      .ok (some ParticipationStatus.APPROVED) :=
  ⟨by decide, by decide, rfl, rfl⟩

/-- C6 is refuted at a concrete state: with two APPROVED NEED riders and
an ACCEPTED match whose rider is a REJECTED participant, the stats
operation returns 2 unmatched riders (the size of the set difference)
while the claimed formula need-count minus distinct-accepted-riders
gives 1. -/
theorem unmatched_riders_not_subtraction :
    (event_stats c6State 1).unmatched_riders_count = 2 ∧
    unmatched_riders_spec c6State 1 = 1 ∧
    ((event_stats c6State 1).unmatched_riders_count : Int) ≠
      unmatched_riders_spec c6State 1 :=
  ⟨by decide, by decide, by decide⟩

/-- C6 amended: unmatched_riders_count is the number of APPROVED NEED
rider ids with no ACCEPTED match; it equals need-count minus the number
of distinct accepted riders exactly when every accepted rider id belongs
to an APPROVED NEED participant (and the NEED rider ids are distinct,
as the primary keys of rows are). -/
theorem unmatched_riders_count_formula
    (s : DB) (eid : Nat)
    (hsub : ((acceptedMatches s eid).map
        (fun m => m.rider_participant_id)).toFinset ⊆
      ((approvedWithMode s eid RideMode.NEED).map (fun p => p.id)).toFinset)
    (hnodup : ((approvedWithMode s eid RideMode.NEED).map
        (fun p => p.id)).Nodup) :
    (event_stats s eid).unmatched_riders_count =
      (event_stats s eid).need_ride_count -
        ((acceptedMatches s eid).map
          (fun m => m.rider_participant_id)).toFinset.card := by
  unfold event_stats
  simp only []
  rw [Finset.card_sdiff hsub]
  congr 1
  rw [List.toFinset_card_of_nodup hnodup]
  simp

/-- Witness for C6 amended: in a state where the only accepted rider is
one of the two APPROVED NEED riders, the count is 2 - 1 = 1. -/
theorem unmatched_riders_count_formula_witness :
    (((acceptedMatches c6wState 1).map
        (fun m => m.rider_participant_id)).toFinset ⊆
      ((approvedWithMode c6wState 1 RideMode.NEED).map
        (fun p => p.id)).toFinset) ∧
    ((approvedWithMode c6wState 1 RideMode.NEED).map
      (fun p => p.id)).Nodup ∧
    (event_stats c6wState 1).unmatched_riders_count =
      (event_stats c6wState 1).need_ride_count -
        ((acceptedMatches c6wState 1).map
          (fun m => m.rider_participant_id)).toFinset.card :=
  ⟨by decide, by decide, unmatched_riders_count_formula c6wState 1
    (by decide) (by decide)⟩

/-- C7 is refuted at a concrete state: on a full OPEN event a join with
invalid ride fields (OFFER with 0 seats) fails with the Capacity error
"Event is full", not with the ValidationError that normalization would
raise, because the source resolves the status before normalizing. -/
theorem join_full_open_beats_validation :
    normalize_ride RideMode.OFFER (some 0) =
      .error (.http 400 "seats_offered must be >= 1 when ride_mode=OFFER") ∧
    join_event c7State 1 2 RideMode.OFFER (some 0) none none =
      .error (.http 400 "Event is full") ∧
    join_event c7State 1 2 RideMode.OFFER (some 0) none none ≠
      .error (.http 400 "seats_offered must be >= 1 when ride_mode=OFFER") := by
  refine ⟨rfl, rfl, ?_⟩
  intro hx
  have h1 : join_event c7State 1 2 RideMode.OFFER (some 0) none none =
      .error (.http 400 "Event is full") := rfl
  rw [h1] at hx
  injection hx with h2
  injection h2 with h3 h4
  exact absurd h4 (by decide)

/-- A normalization error propagates out of the core once the status
resolution has succeeded. -/
theorem join_event_core_norm_error (s : DB) (eid uid : Nat) (e : Event)
    (rm : RideMode) (seats : Option Int) (pa no : Option String)
    (st : ParticipationStatus) (verr : Err)
    (hres : resolve_join_status e (count_approved s eid) = .ok st)
    (hnorm : normalize_ride rm seats = .error verr) :
    join_event_core s eid uid e rm seats pa no = .error verr := by
  unfold join_event_core
  split
  · rename_i e2 heq
    rw [hres] at heq
    cases heq
  · rename_i st2 heq
    rw [hres] at heq
    injection heq with h2
    subst h2
    split
    · rename_i e2 heq2
      rw [hnorm] at heq2
      injection heq2 with h3
      rw [h3]
    · rename_i rm3 ns3 heq2
      rw [hnorm] at heq2
      cases heq2

/-- C7 amended: in join the status resolution (steps 3 and 4) runs
before ride-field normalization (step 2): a resolution error — in
particular the Capacity error of a full OPEN event — is returned even
when the ride fields are invalid, and a normalization error is returned
only when the status resolution succeeded. -/
theorem join_resolves_policy_before_validation
    (s : DB) (eid uid : Nat) (rm : RideMode) (seats : Option Int)
    (pa no : Option String) (e : Event)
    (he : oneOrNone (s.events.filter (fun (x : Event) => x.id == eid)) =
      .ok (some e))
    (hpub : e.status = EventStatus.PUBLISHED) :
    (∀ err, resolve_join_status e (count_approved s eid) = .error err →
      join_event s eid uid rm seats pa no = .error err) ∧
    (∀ st verr, resolve_join_status e (count_approved s eid) = .ok st →
      normalize_ride rm seats = .error verr →
      join_event s eid uid rm seats pa no = .error verr) := by
  have hnc : e.status ≠ EventStatus.CANCELED := by
    rw [hpub]
    intro hx
    cases hx
  constructor
  · intro err hres
    rw [join_event_after_event s eid uid rm seats pa no e he hnc]
    exact join_event_core_resolve_error s eid uid e rm seats pa no err hres
  · intro st verr hres hnormerr
    rw [join_event_after_event s eid uid rm seats pa no e he hnc]
    exact join_event_core_norm_error s eid uid e rm seats pa no st verr
      hres hnormerr

/-- Witness for C7 amended: on the full OPEN event the resolution error
is the one the join returns, with invalid ride fields supplied. -/
theorem join_resolves_policy_before_validation_witness :
    oneOrNone (c7State.events.filter (fun (x : Event) => x.id == 1)) =
      .ok (some (openEvent (some 1))) ∧
    (openEvent (some 1)).status = EventStatus.PUBLISHED ∧
    resolve_join_status (openEvent (some 1)) (count_approved c7State 1) =
      .error (.http 400 "Event is full") ∧
    join_event c7State 1 2 RideMode.OFFER (some 0) none none =
      .error (.http 400 "Event is full") := by
  refine ⟨rfl, rfl, rfl, ?_⟩
  exact (join_resolves_policy_before_validation c7State 1 2 RideMode.OFFER
    (some 0) none none (openEvent (some 1)) rfl rfl).1 _ rfl

/-- The spec planner produces nothing once the rider queue is empty. -/
theorem plannerSpec_nil_riders (remainingOf : Participant → Int) :
    ∀ ds : List Participant, plannerSpec remainingOf ds [] = [] := by
  intro ds
  cases ds <;> rfl

/-- The loop of the suggestions operation coincides with the greedy
planner described by the spec. -/
theorem suggestionsGo_eq_plannerSpec (s : DB) (eid : Nat) :
    ∀ ds rs : List Participant,
      suggestionsGo s eid ds rs =
        plannerSpec
          (fun d => (d.seats_offered : Int) - accepted_count s eid d.id)
          ds rs := by
  intro ds
  induction ds with
  | nil => intro rs; rfl
  | cons d dt ih =>
      intro rs
      cases rs with
      | nil =>
          unfold suggestionsGo
          simp [plannerSpec_nil_riders]
      | cons r rt =>
          unfold suggestionsGo plannerSpec
          simp only []
          by_cases hrest : (List.drop
              ((( d.seats_offered : Int) -
                (accepted_count s eid d.id : Int)).toNat) (r :: rt)).isEmpty
              = true
          · rw [if_pos hrest]
            rw [List.isEmpty_iff] at hrest
            rw [hrest, plannerSpec_nil_riders, List.append_nil]
          · rw [if_neg hrest, ih]

/-- C9: the suggestions operation implements exactly the greedy planner
of the spec — drivers in ascending creation order, each consuming
remaining = seats_offered minus its ACCEPTED-match count riders from the
front of the rider queue, stopping when the queue is exhausted — and on
the concrete example with drivers offering 1 and 2 seats and three
riders it yields exactly the pairs (D1,R1), (D2,R2), (D2,R3). -/
theorem suggestions_match_planner_spec :
    (∀ (s : DB) (eid : Nat),
      suggestions s eid =
        plannerSpec
          (fun d => (d.seats_offered : Int) - accepted_count s eid d.id)
          (sortByCreated (approvedWithMode s eid RideMode.OFFER))
          (sortByCreated (approvedWithMode s eid RideMode.NEED))) ∧
    suggestions c9State 1 = [(10, 12), (11, 13), (11, 14)] :=
  ⟨fun s eid => suggestionsGo_eq_plannerSpec s eid _ _, by decide⟩

/-- C8 is refuted at concrete states: leave, update_my_participation and
the organizer status change all succeed on a DRAFT event and on a
CANCELED event — none of them checks the event status. -/
theorem mutations_succeed_on_unpublished_event :
    c8DraftState.events.map Event.status = [EventStatus.DRAFT] ∧
    (leave_event c8DraftState 1 1).isOk = true ∧
    (update_my_participation c8DraftState 1 1 none none none none).isOk
      = true ∧
    (set_participant_status c8DraftState 1 100 10
      ParticipationStatus.REJECTED).isOk = true ∧
    c8CancState.events.map Event.status = [EventStatus.CANCELED] ∧
    (leave_event c8CancState 1 1).isOk = true ∧
    (update_my_participation c8CancState 1 1 none none none none).isOk
      = true ∧
    (set_participant_status c8CancState 1 100 10
      ParticipationStatus.REJECTED).isOk = true := by
  refine ⟨rfl, ?_, ?_, ?_, rfl, ?_, ?_, ?_⟩ <;> decide

/-- C8 amended: of the participation mutations only join requires the
event to be PUBLISHED: a join on a CANCELED event fails with the
canceled-event error and a join on any other unpublished event (DRAFT)
fails with the not-published error, while leave, update_my_participation
and set_participant_status perform no event-status check (see the
counterexample states, where they succeed on DRAFT and CANCELED
events). -/
theorem only_join_requires_published
    (s : DB) (eid uid : Nat) (rm : RideMode) (seats : Option Int)
    (pa no : Option String) (e : Event)
    (he : oneOrNone (s.events.filter (fun (x : Event) => x.id == eid)) =
      .ok (some e))
    (hnp : e.status ≠ EventStatus.PUBLISHED) :
    (e.status = EventStatus.CANCELED →
      join_event s eid uid rm seats pa no =
        .error (.http 400 "Event is canceled")) ∧
    (e.status ≠ EventStatus.CANCELED →
      join_event s eid uid rm seats pa no =
        .error (.http 400 "Event is not published")) := by
  constructor
  · intro hc
    unfold join_event
    split
    · rename_i e2 heq
      rw [he] at heq
      cases heq
    · rename_i heq
      rw [he] at heq
      cases heq
    · rename_i event heq
      rw [he] at heq
      injection heq with h2
      injection h2 with h3
      subst h3
      rw [if_pos hc]
  · intro hc
    rw [join_event_after_event s eid uid rm seats pa no e he hc]
    exact join_event_core_resolve_error s eid uid e rm seats pa no _
      (resolve_join_status_not_published hnp)

/-- Witness for C8 amended: joining the DRAFT event fails with the
not-published error. -/
theorem only_join_requires_published_witness :
    oneOrNone (c8DraftState.events.filter (fun (x : Event) => x.id == 1)) =
      .ok (some draftEvent) ∧
    draftEvent.status ≠ EventStatus.PUBLISHED ∧
    draftEvent.status ≠ EventStatus.CANCELED ∧
    join_event c8DraftState 1 2 RideMode.NONE none none none =
      .error (.http 400 "Event is not published") := by
  refine ⟨rfl, by decide, by decide, ?_⟩
  exact (only_join_requires_published c8DraftState 1 2 RideMode.NONE none
    none none draftEvent rfl (by decide)).2 (by decide)

/-- C10: set_participant_status imposes no precondition on the current
status of the participant: given the row lookups, the call succeeds
exactly when the target is APPROVED or REJECTED, the event exists, the
actor is its organizer, the participant exists, and — for target
APPROVED with capacity set — the event is not full; on success it
writes exactly the target status, leaving ride_mode, seats_offered,
pickup_area and notes unchanged. -/
theorem set_participant_status_no_status_precondition
    (s : DB) (eid oid pid : Nat) (target : ParticipationStatus)
    (eOpt : Option Event) (pOpt : Option Participant)
    (he : oneOrNone (s.events.filter (fun (x : Event) => x.id == eid)) =
      .ok eOpt)
    (hp : oneOrNone (s.participants.filter
        (fun (q : Participant) => q.id == pid && q.event_id == eid)) =
      .ok pOpt) :
    ((set_participant_status s eid oid pid target).isOk = true ↔
      ((target = ParticipationStatus.APPROVED ∨
          target = ParticipationStatus.REJECTED) ∧
       ∃ e, eOpt = some e ∧ e.created_by = oid ∧
       ∃ p, pOpt = some p ∧
       (target = ParticipationStatus.APPROVED →
         ∀ c, e.capacity = some c → count_approved s eid < c))) ∧
    (∀ s' q, set_participant_status s eid oid pid target = .ok (s', q) →
      ∃ p, pOpt = some p ∧ q = { p with status := target }) := by
  constructor
  · constructor
    · -- success implies the conditions
      intro hok
      cases hrun : set_participant_status s eid oid pid target with
      | error err =>
          rw [hrun] at hok
          cases hok
      | ok v =>
          obtain ⟨s2, q2⟩ := v
          obtain ⟨htgt, e, p, hEfil, hown, hPfil, hgate, hpres, _⟩ :=
            set_participant_status_ok_inv hrun
          rw [hEfil] at he
          injection he with h2
          rw [hPfil] at hp
          injection hp with h3
          exact ⟨htgt, e, h2.symm, hown, p, h3.symm, hgate⟩
    · -- the conditions imply success
      rintro ⟨htgt, e, heOpt, hown, p, hpOpt, hgate⟩
      subst heOpt
      subst hpOpt
      unfold set_participant_status
      rw [if_neg (by
        rintro ⟨h1, h2⟩
        rcases htgt with h | h
        · exact h1 h
        · exact h2 h)]
      split
      · rename_i e2 heq
        rw [he] at heq
        cases heq
      · rename_i heq
        rw [he] at heq
        cases heq
      · rename_i e2 heq
        rw [he] at heq
        injection heq with h2
        injection h2 with h3
        subst h3
        rw [if_neg (fun hk => hk hown)]
        split
        · rename_i e3 heq2
          rw [hp] at heq2
          cases heq2
        · rename_i heq2
          rw [hp] at heq2
          cases heq2
        · rename_i p2 heq2
          rw [hp] at heq2
          injection heq2 with h4
          injection h4 with h5
          subst h5
          simp only []
          split
          · rename_i hta
            split
            · rename_i c hcap
              rw [if_neg (by
                have := hgate hta c hcap
                omega)]
              rfl
            · rfl
          · rfl
  · -- on success exactly the status changes
    intro s' q hrun
    obtain ⟨htgt, e, p, hEfil, hown, hPfil, hgate, hpres, _⟩ :=
      set_participant_status_ok_inv hrun
    rw [hPfil] at hp
    injection hp with h3
    exact ⟨p, h3.symm, hpres⟩

/-- Witness for C10: a CANCELED participant of a capacity-2 event with
nobody approved is re-admitted as APPROVED, ride fields staying
NONE and 0. -/
theorem set_participant_status_no_status_precondition_witness :
    (set_participant_status c10State 1 100 10
      ParticipationStatus.APPROVED).isOk = true ∧
    (∀ s' q, set_participant_status c10State 1 100 10
        ParticipationStatus.APPROVED = .ok (s', q) →
      ∃ p, some (mkParticipant 10 1 ParticipationStatus.CANCELED
          RideMode.NONE 0) = some p ∧
        q = { p with status := ParticipationStatus.APPROVED }) := by
  have h := set_participant_status_no_status_precondition c10State 1 100 10
    ParticipationStatus.APPROVED (some (openEvent (some 2)))
    (some (mkParticipant 10 1 ParticipationStatus.CANCELED RideMode.NONE 0))
    rfl rfl
  refine ⟨h.1.mpr ⟨Or.inl rfl, openEvent (some 2), rfl, rfl,
    mkParticipant 10 1 ParticipationStatus.CANCELED RideMode.NONE 0, rfl,
    ?_⟩, h.2⟩
  intro _ c hc
  injection hc with h2
  subst h2
  decide

/-- The compatibility/seat check succeeds exactly under the conditions
the spec lists: both participants exist in the event, they differ, both
are APPROVED, the driver offers, the rider needs, and the driver has a
seat left. -/
theorem ensure_compatible_and_seat_ok_iff (s : DB) (eid dpid rpid : Nat) :
    ensure_compatible_and_seat s eid dpid rpid = .ok () ↔
      ∃ d r,
        s.participants.filter
          (fun (q : Participant) => q.id == dpid && q.event_id == eid) = [d] ∧
        s.participants.filter
          (fun (q : Participant) => q.id == rpid && q.event_id == eid) = [r] ∧
        d.id ≠ r.id ∧
        d.status = ParticipationStatus.APPROVED ∧
        r.status = ParticipationStatus.APPROVED ∧
        d.ride_mode = RideMode.OFFER ∧ r.ride_mode = RideMode.NEED ∧
        accepted_count s eid d.id < d.seats_offered := by
  constructor
  · exact ensure_compatible_and_seat_ok_inv
  · rintro ⟨d, r, hdf, hrf, hne, hda, hra, hdm, hrm, hseat⟩
    have hDo : oneOrNone (s.participants.filter
        (fun (q : Participant) => q.id == dpid && q.event_id == eid)) =
        .ok (some d) := by
      rw [hdf]
      rfl
    have hRo : oneOrNone (s.participants.filter
        (fun (q : Participant) => q.id == rpid && q.event_id == eid)) =
        .ok (some r) := by
      rw [hrf]
      rfl
    unfold ensure_compatible_and_seat
    rw [hDo, hRo]
    simp only []
    rw [if_neg hne]
    rw [if_neg (fun hor => hor.elim (fun hx => hx hda) (fun hx => hx hra))]
    rw [if_neg (fun hx => hx hdm)]
    rw [if_neg (fun hx => hx hrm)]
    rw [if_neg (by omega)]

/-- C4: accepting an existing match by an authorized actor succeeds
exactly when the full compatibility/seat check passes at accept time,
independently of the state at proposal time; when the check fails, the
error propagates and the state — in particular the status of the
match — is unchanged; when it succeeds, the match becomes ACCEPTED. -/
theorem accept_match_iff_check_at_accept_time
    (s : DB) (mid uid : Nat) (m : RideMatch)
    (dOpt rOpt : Option Participant)
    (hm : oneOrNone (s.ride_matches.filter
        (fun (x : RideMatch) => x.id == mid)) = .ok (some m))
    (hd : oneOrNone (s.participants.filter
        (fun (q : Participant) => q.id == m.driver_participant_id)) =
      .ok dOpt)
    (hr : oneOrNone (s.participants.filter
        (fun (q : Participant) => q.id == m.rider_participant_id)) =
      .ok rOpt)
    (hallow : allowedUser uid m dOpt rOpt = true) :
    ((update_match_status s mid uid RideMatchStatus.ACCEPTED).isOk = true ↔
      ensure_compatible_and_seat s m.event_id m.driver_participant_id
        m.rider_participant_id = .ok ()) ∧
    (∀ err, ensure_compatible_and_seat s m.event_id m.driver_participant_id
        m.rider_participant_id = .error err →
      update_match_status s mid uid RideMatchStatus.ACCEPTED = .error err ∧
      applyOp s (Op.updateMatch mid uid RideMatchStatus.ACCEPTED) = s) ∧
    (∀ s' m', update_match_status s mid uid RideMatchStatus.ACCEPTED =
        .ok (s', m') → m'.status = RideMatchStatus.ACCEPTED) := by
  have hbuild : ∀ r2 : Except Err Unit,
      ensure_compatible_and_seat s m.event_id m.driver_participant_id
        m.rider_participant_id = r2 →
      update_match_status s mid uid RideMatchStatus.ACCEPTED =
        (match r2 with
         | .error err => .error err
         | .ok _ =>
             let m2 : RideMatch := { m with status := RideMatchStatus.ACCEPTED }
             let ms := s.ride_matches.map (fun x => if x.id == mid then m2 else x)
             .ok ({ s with ride_matches := ms }, m2)) := by
    intro r2 hr2
    unfold update_match_status
    rw [if_neg (fun hcon => hcon.1 rfl)]
    split
    · rename_i e2 heq
      rw [hm] at heq
      cases heq
    · rename_i heq
      rw [hm] at heq
      cases heq
    · rename_i m2 heq
      rw [hm] at heq
      injection heq with h2
      injection h2 with h3
      subst h3
      split
      · rename_i e2 heq2
        rw [hd] at heq2
        cases heq2
      · rename_i dOpt2 heq2
        rw [hd] at heq2
        injection heq2 with h4
        subst h4
        split
        · rename_i e2 heq3
          rw [hr] at heq3
          cases heq3
        · rename_i rOpt2 heq3
          rw [hr] at heq3
          injection heq3 with h5
          subst h5
          simp only []
          rw [if_neg (by
            rw [hallow]
            decide)]
          rw [if_pos trivial]
          rw [hr2]
  refine ⟨?_, ?_, ?_⟩
  · constructor
    · intro hok
      cases hres : ensure_compatible_and_seat s m.event_id
          m.driver_participant_id m.rider_participant_id with
      | ok u =>
          cases u
          rfl
      | error err =>
          rw [hbuild (.error err) hres] at hok
          cases hok
    · intro hok
      rw [hbuild (.ok ()) hok]
      rfl
  · intro err herr
    have hupd := hbuild (.error err) herr
    constructor
    · exact hupd
    · simp only [applyOp]
      rw [hupd]
  · intro s' m' hrun
    obtain ⟨m2, hfil, hpres, _⟩ := update_match_status_ok_inv hrun
    rw [hpres]

/-- Witness for C4: in the concrete proposed-match state the check
passes at accept time and the accept call succeeds. -/
theorem accept_match_iff_check_at_accept_time_witness :
    oneOrNone (c4State.ride_matches.filter
      (fun (x : RideMatch) => x.id == 30)) = .ok (some c4Match) ∧
    oneOrNone (c4State.participants.filter
      (fun (q : Participant) => q.id == c4Match.driver_participant_id)) =
      .ok (some (mkParticipant 10 1 ParticipationStatus.APPROVED
        RideMode.OFFER 1)) ∧
    oneOrNone (c4State.participants.filter
      (fun (q : Participant) => q.id == c4Match.rider_participant_id)) =
      .ok (some (mkParticipant 11 2 ParticipationStatus.APPROVED
        RideMode.NEED 0)) ∧
    allowedUser 1 c4Match
      (some (mkParticipant 10 1 ParticipationStatus.APPROVED RideMode.OFFER 1))
      (some (mkParticipant 11 2 ParticipationStatus.APPROVED RideMode.NEED 0))
      = true ∧
    ensure_compatible_and_seat c4State c4Match.event_id
      c4Match.driver_participant_id c4Match.rider_participant_id = .ok () ∧
    (update_match_status c4State 30 1 RideMatchStatus.ACCEPTED).isOk = true := by
  refine ⟨rfl, rfl, rfl, by decide, rfl, ?_⟩
  exact (accept_match_iff_check_at_accept_time c4State 30 1 c4Match
    (some (mkParticipant 10 1 ParticipationStatus.APPROVED RideMode.OFFER 1))
    (some (mkParticipant 11 2 ParticipationStatus.APPROVED RideMode.NEED 0))
    rfl rfl rfl (by decide)).1.mpr rfl

/-- C2 is refuted on a reachable trace: a driver joins offering 2 seats,
two matches are accepted, then the driver lowers seats_offered to 1 with
ride_mode unchanged; no cascade runs, so the driver holds 2 ACCEPTED
matches against 1 seat. -/
theorem driver_seats_invariant_violated :
    driverSeatInv c2State = true ∧
    driverSeatInv (runOps c2State c2Ops) = false ∧
    accepted_count (runOps c2State c2Ops) 1 0 = 2 ∧
    (findParticipant (runOps c2State c2Ops) 0).map Participant.seats_offered =
      some 1 ∧
    (findParticipant (runOps c2State c2Ops) 0).map Participant.ride_mode =
      some RideMode.OFFER :=
  ⟨by decide, by decide, by decide, rfl, rfl⟩

theorem accepted_count_eq (s : DB) (eid pid : Nat) :
    accepted_count s eid pid = s.ride_matches.countP (acceptedSel eid pid) :=
  rfl

theorem acceptedSel_iff {eid pid : Nat} {m : RideMatch} :
    acceptedSel eid pid m = true ↔
      m.event_id = eid ∧ m.driver_participant_id = pid ∧
        m.status = RideMatchStatus.ACCEPTED := by
  simp [acceptedSel, and_assoc]

theorem activeMatchOf_of_acceptedSel {eid pid : Nat} {m : RideMatch}
    (h : acceptedSel eid pid m = true) : activeMatchOf eid pid m = true := by
  obtain ⟨h1, h2, h3⟩ := acceptedSel_iff.mp h
  simp [activeMatchOf, h1, h2, h3]

/-- Cascade cancellation never increases an accepted-driver count. -/
theorem cancel_map_countP_le (eid pid e2 i2 : Nat) (M : List RideMatch) :
    (M.map (fun m => if activeMatchOf eid pid m
        then { m with status := RideMatchStatus.CANCELED } else m)).countP
      (acceptedSel e2 i2) ≤ M.countP (acceptedSel e2 i2) := by
  refine countP_map_le_of_imp _ _ _ ?_
  intro m _ hm
  simp only [] at hm
  by_cases hact : activeMatchOf eid pid m = true
  · rw [if_pos hact] at hm
    simp [acceptedSel] at hm
  · rw [if_neg hact] at hm
    exact hm

/-- Cascade cancellation zeroes the accepted-driver count of the very
participant whose matches it cancels. -/
theorem cancel_map_countP_zero (eid pid : Nat) (M : List RideMatch) :
    (M.map (fun m => if activeMatchOf eid pid m
        then { m with status := RideMatchStatus.CANCELED } else m)).countP
      (acceptedSel eid pid) = 0 := by
  apply countP_eq_zero_of_all
  intro x hx
  obtain ⟨m, hmM, hfx⟩ := List.mem_map.mp hx
  rw [← hfx]
  by_cases hact : activeMatchOf eid pid m = true
  · rw [if_pos hact]
    simp [acceptedSel]
  · rw [if_neg hact]
    cases hacc : acceptedSel eid pid m with
    | false => rfl
    | true => exact absurd (activeMatchOf_of_acceptedSel hacc) hact

theorem driverSeatInv_iff (s : DB) :
    driverSeatInv s = true ↔
      ∀ p ∈ s.participants,
        accepted_count s p.event_id p.id ≤ p.seats_offered := by
  simp [driverSeatInv, List.all_eq_true]

theorem idsBounded_iff (s : DB) :
    idsBounded s = true ↔
      (∀ p ∈ s.participants, p.id < s.nextId) ∧
      (∀ m ∈ s.ride_matches, m.driver_participant_id < s.nextId) := by
  simp [idsBounded, List.all_eq_true]

/-- What seat safety of a join means for an existing participant. -/
theorem seatSafeOp_join_elim {s : DB} {jeid uid : Nat} {rm : RideMode}
    {seats : Option Int} {pa no : Option String} {rm2 : RideMode} {ns : Nat}
    (hsafe : seatSafeOp s (Op.join jeid uid rm seats pa no) = true)
    (hnorm : normalize_ride rm seats = .ok (rm2, ns)) :
    ∀ p ∈ s.participants, partSel jeid uid p = true →
      accepted_count s jeid p.id ≤ ns := by
  simp only [seatSafeOp] at hsafe
  rw [hnorm] at hsafe
  rw [List.all_eq_true] at hsafe
  intro p hp hsel
  have h1 := hsafe p hp
  rw [hsel] at h1
  simp at h1
  exact h1

/-- What seat safety of an update means when the ride mode is kept. -/
theorem seatSafeOp_updateMe_elim {s : DB} {ueid uid : Nat}
    {rmA : Option RideMode} {seatsA : Option Int} {pa no : Option String}
    (hsafe : seatSafeOp s (Op.updateMe ueid uid rmA seatsA pa no) = true) :
    ∀ p ∈ s.participants, partSel ueid uid p = true →
      ∀ nm ns, normalize_ride
          (match rmA with | some m => m | none => p.ride_mode)
          (some (match seatsA with
                 | some n => n | none => (p.seats_offered : Int))) =
          .ok (nm, ns) →
      nm = p.ride_mode → accepted_count s ueid p.id ≤ ns := by
  simp only [seatSafeOp] at hsafe
  rw [List.all_eq_true] at hsafe
  intro p hp hsel nm ns hnorm hmode
  have h1 := hsafe p hp
  rw [hsel] at h1
  simp only [Bool.not_true, Bool.false_or] at h1
  rw [hnorm] at h1
  rw [hmode] at h1
  simp at h1
  exact h1

/-- Single-step preservation of the id bound and of the driver-seat
invariant, for seat-safe operations. -/
theorem seat_invariants_applyOp (s : DB) (op : Op)
    (hwf : idsBounded s = true) (hinv : driverSeatInv s = true)
    (hsafe : seatSafeOp s op = true) :
    idsBounded (applyOp s op) = true ∧ driverSeatInv (applyOp s op) = true := by
  obtain ⟨hWp, hWm⟩ := (idsBounded_iff s).mp hwf
  have hJ := (driverSeatInv_iff s).mp hinv
  cases op with
  | join jeid uid rm seats pa no =>
      simp only [applyOp]
      cases hrun : join_event s jeid uid rm seats pa no with
      | error e => exact ⟨hwf, hinv⟩
      | ok v =>
          obtain ⟨s2, p2⟩ := v
          obtain ⟨e, st, rm2, ns, hfil, hres, hnorm, hev, hmat, hstat, heid,
            hrm, hns, hcases⟩ := join_event_ok_inv hrun
          have hsafe2 := seatSafeOp_join_elim hsafe hnorm
          rcases hcases with ⟨hfilnil, hid, hparts, hnext⟩ |
            ⟨p0, hfil0, hid, huid, hparts, hnext⟩
          · -- a fresh participant is appended
            constructor
            · rw [idsBounded_iff]
              constructor
              · intro q hq
                rw [hparts] at hq
                rw [hnext]
                rcases List.mem_append.mp hq with hql | hq2
                · have := hWp q hql
                  omega
                · rw [List.mem_singleton.mp hq2, hid]
                  omega
              · intro mm hmm
                rw [hmat] at hmm
                rw [hnext]
                have := hWm mm hmm
                omega
            · rw [driverSeatInv_iff]
              intro q hq
              rw [hparts] at hq
              rw [accepted_count_eq, hmat]
              rcases List.mem_append.mp hq with hql | hq2
              · rw [← accepted_count_eq s q.event_id q.id]
                exact hJ q hql
              · rw [List.mem_singleton.mp hq2]
                have hzero : s.ride_matches.countP
                    (acceptedSel p2.event_id p2.id) = 0 := by
                  apply countP_eq_zero_of_all
                  intro mm hmm
                  cases hx : acceptedSel p2.event_id p2.id mm with
                  | false => rfl
                  | true =>
                      obtain ⟨_, hdrv, _⟩ := acceptedSel_iff.mp hx
                      have := hWm mm hmm
                      rw [hdrv, hid] at this
                      omega
                rw [hzero]
                omega
          · -- an existing participant row is overwritten
            have hp0mem := filter_singleton_mem hfil0
            constructor
            · rw [idsBounded_iff]
              constructor
              · intro q hq
                rw [hparts] at hq
                rw [hnext]
                obtain ⟨a, ha, hfa⟩ := List.mem_map.mp hq
                by_cases hsel : partSel jeid uid a = true
                · rw [if_pos hsel] at hfa
                  rw [← hfa, hid]
                  exact hWp p0 hp0mem.1
                · rw [if_neg hsel] at hfa
                  rw [← hfa]
                  exact hWp a ha
              · intro mm hmm
                rw [hmat] at hmm
                rw [hnext]
                exact hWm mm hmm
            · rw [driverSeatInv_iff]
              intro q hq
              rw [hparts] at hq
              rw [accepted_count_eq, hmat]
              obtain ⟨a, ha, hfa⟩ := List.mem_map.mp hq
              by_cases hsel : partSel jeid uid a = true
              · rw [if_pos hsel] at hfa
                rw [← hfa, heid, hid, hns]
                rw [← accepted_count_eq s jeid p0.id]
                exact hsafe2 p0 hp0mem.1 hp0mem.2
              · rw [if_neg hsel] at hfa
                rw [← hfa]
                rw [← accepted_count_eq s a.event_id a.id]
                exact hJ a ha
  | leave lid uid =>
      simp only [applyOp]
      cases hrun : leave_event s lid uid with
      | error e => exact ⟨hwf, hinv⟩
      | ok v =>
          obtain ⟨s2, p2⟩ := v
          obtain ⟨p, hfil, hpres, hev, hnext, hmat, hdisj⟩ :=
            leave_event_ok_inv hrun
          have hpmem := filter_singleton_mem hfil
          have hple : p.event_id = lid := (partSel_iff.mp hpmem.2).1
          have hid : p2.id = p.id := by rw [hpres]
          have heid : p2.event_id = p.event_id := by rw [hpres]
          have hseats : p2.seats_offered = 0 := by rw [hpres]
          -- the seat bound for the canceled-and-cascaded intermediate state
          have hJ1 : ∀ q ∈ s.participants.map
              (fun x => if partSel lid uid x = true then p2 else x),
              (s.ride_matches.map
                (fun m => if activeMatchOf lid p.id m
                  then { m with status := RideMatchStatus.CANCELED }
                  else m)).countP (acceptedSel q.event_id q.id) ≤
                q.seats_offered := by
            intro q hq
            obtain ⟨a, ha, hfa⟩ := List.mem_map.mp hq
            by_cases hsel : partSel lid uid a = true
            · rw [if_pos hsel] at hfa
              rw [← hfa, heid, hid, hseats, hple]
              rw [cancel_map_countP_zero]
            · rw [if_neg hsel] at hfa
              rw [← hfa]
              refine le_trans (cancel_map_countP_le lid p.id a.event_id a.id
                s.ride_matches) ?_
              rw [← accepted_count_eq s a.event_id a.id]
              exact hJ a ha
          have hWp1 : ∀ q ∈ s.participants.map
              (fun x => if partSel lid uid x = true then p2 else x),
              q.id < s.nextId := by
            intro q hq
            obtain ⟨a, ha, hfa⟩ := List.mem_map.mp hq
            by_cases hsel : partSel lid uid a = true
            · rw [if_pos hsel] at hfa
              rw [← hfa, hid]
              exact hWp p hpmem.1
            · rw [if_neg hsel] at hfa
              rw [← hfa]
              exact hWp a ha
          have hWm1 : ∀ mm ∈ s.ride_matches.map
              (fun m => if activeMatchOf lid p.id m
                then { m with status := RideMatchStatus.CANCELED } else m),
              mm.driver_participant_id < s.nextId := by
            intro mm hmm
            obtain ⟨m0, hm0, hfm⟩ := List.mem_map.mp hmm
            by_cases hact : activeMatchOf lid p.id m0 = true
            · rw [if_pos hact] at hfm
              rw [← hfm]
              exact hWm m0 hm0
            · rw [if_neg hact] at hfm
              rw [← hfm]
              exact hWm m0 hm0
          rcases hdisj with hparts | ⟨event, c, hEfil, hecap, hpend, hlt, hparts⟩
          · constructor
            · rw [idsBounded_iff]
              rw [hnext]
              constructor
              · intro q hq
                rw [hparts] at hq
                exact hWp1 q hq
              · intro mm hmm
                rw [hmat] at hmm
                exact hWm1 mm hmm
            · rw [driverSeatInv_iff]
              intro q hq
              rw [hparts] at hq
              rw [accepted_count_eq, hmat]
              exact hJ1 q hq
          · constructor
            · rw [idsBounded_iff]
              rw [hnext]
              constructor
              · intro q hq
                rw [hparts] at hq
                obtain ⟨b, hb, hfb⟩ := List.mem_map.mp hq
                by_cases hpend2 : pendingSel lid b = true
                · rw [if_pos hpend2] at hfb
                  rw [← hfb]
                  exact hWp1 b hb
                · rw [if_neg hpend2] at hfb
                  rw [← hfb]
                  exact hWp1 b hb
              · intro mm hmm
                rw [hmat] at hmm
                exact hWm1 mm hmm
            · rw [driverSeatInv_iff]
              intro q hq
              rw [hparts] at hq
              rw [accepted_count_eq, hmat]
              obtain ⟨b, hb, hfb⟩ := List.mem_map.mp hq
              by_cases hpend2 : pendingSel lid b = true
              · rw [if_pos hpend2] at hfb
                rw [← hfb]
                exact hJ1 b hb
              · rw [if_neg hpend2] at hfb
                rw [← hfb]
                exact hJ1 b hb
  | updateMe ueid uid rmA seatsA pa no =>
      simp only [applyOp]
      cases hrun : update_my_participation s ueid uid rmA seatsA pa no with
      | error e => exact ⟨hwf, hinv⟩
      | ok v =>
          obtain ⟨s2, p2⟩ := v
          obtain ⟨p, nm, ns, hfil, hsts, hnorm, hid, heid2, huid, hstp, hrmp,
            hnsp, hev, hnext, hparts, hmd⟩ := update_my_participation_ok_inv hrun
          have hpmem := filter_singleton_mem hfil
          have hple : p.event_id = ueid := (partSel_iff.mp hpmem.2).1
          constructor
          · rw [idsBounded_iff]
            rw [hnext]
            constructor
            · intro q hq
              rw [hparts] at hq
              obtain ⟨a, ha, hfa⟩ := List.mem_map.mp hq
              by_cases hsel : partSel ueid uid a = true
              · rw [if_pos hsel] at hfa
                rw [← hfa, hid]
                exact hWp p hpmem.1
              · rw [if_neg hsel] at hfa
                rw [← hfa]
                exact hWp a ha
            · intro mm hmm
              rcases hmd with ⟨_, hmat⟩ | ⟨_, hmat⟩
              · rw [hmat] at hmm
                exact hWm mm hmm
              · rw [hmat] at hmm
                obtain ⟨m0, hm0, hfm⟩ := List.mem_map.mp hmm
                by_cases hact : activeMatchOf ueid p.id m0 = true
                · rw [if_pos hact] at hfm
                  rw [← hfm]
                  exact hWm m0 hm0
                · rw [if_neg hact] at hfm
                  rw [← hfm]
                  exact hWm m0 hm0
          · rw [driverSeatInv_iff]
            intro q hq
            rw [hparts] at hq
            rw [accepted_count_eq]
            obtain ⟨a, ha, hfa⟩ := List.mem_map.mp hq
            rcases hmd with ⟨hmode, hmat⟩ | ⟨hmode, hmat⟩
            · -- ride mode kept: matches unchanged, safety bounds the seats
              rw [hmat]
              by_cases hsel : partSel ueid uid a = true
              · rw [if_pos hsel] at hfa
                rw [← hfa, heid2, hid, hnsp, hple]
                rw [← accepted_count_eq s ueid p.id]
                exact seatSafeOp_updateMe_elim hsafe p hpmem.1 hpmem.2 nm ns
                  hnorm hmode.symm
              · rw [if_neg hsel] at hfa
                rw [← hfa]
                rw [← accepted_count_eq s a.event_id a.id]
                exact hJ a ha
            · -- ride mode changed: the cascade cancels the matches
              rw [hmat]
              by_cases hsel : partSel ueid uid a = true
              · rw [if_pos hsel] at hfa
                rw [← hfa, heid2, hid, hnsp, hple]
                rw [cancel_map_countP_zero]
                omega
              · rw [if_neg hsel] at hfa
                rw [← hfa]
                refine le_trans (cancel_map_countP_le ueid p.id a.event_id
                  a.id s.ride_matches) ?_
                rw [← accepted_count_eq s a.event_id a.id]
                exact hJ a ha
  | setStatus seid oid pid target =>
      simp only [applyOp]
      cases hrun : set_participant_status s seid oid pid target with
      | error e => exact ⟨hwf, hinv⟩
      | ok v =>
          obtain ⟨s2, p2⟩ := v
          obtain ⟨htgt, e, p, hEfil, hown, hPfil, hgate, hpres, hev, hmat,
            hnext, hparts⟩ := set_participant_status_ok_inv hrun
          have hpmem := filter_singleton_mem hPfil
          have hid : p2.id = p.id := by rw [hpres]
          have heid : p2.event_id = p.event_id := by rw [hpres]
          have hseats : p2.seats_offered = p.seats_offered := by rw [hpres]
          constructor
          · rw [idsBounded_iff]
            rw [hnext]
            constructor
            · intro q hq
              rw [hparts] at hq
              obtain ⟨a, ha, hfa⟩ := List.mem_map.mp hq
              by_cases hsel : (a.id == pid && a.event_id == seid) = true
              · rw [if_pos hsel] at hfa
                rw [← hfa, hid]
                exact hWp p hpmem.1
              · rw [if_neg hsel] at hfa
                rw [← hfa]
                exact hWp a ha
            · intro mm hmm
              rw [hmat] at hmm
              exact hWm mm hmm
          · rw [driverSeatInv_iff]
            intro q hq
            rw [hparts] at hq
            rw [accepted_count_eq, hmat]
            obtain ⟨a, ha, hfa⟩ := List.mem_map.mp hq
            by_cases hsel : (a.id == pid && a.event_id == seid) = true
            · rw [if_pos hsel] at hfa
              rw [← hfa, heid, hid, hseats]
              rw [← accepted_count_eq s p.event_id p.id]
              exact hJ p hpmem.1
            · rw [if_neg hsel] at hfa
              rw [← hfa]
              rw [← accepted_count_eq s a.event_id a.id]
              exact hJ a ha
  | createMatch ceid cb dpid rpid =>
      simp only [applyOp]
      cases hrun : create_match s ceid cb dpid rpid with
      | error e => exact ⟨hwf, hinv⟩
      | ok v =>
          obtain ⟨s2, m2⟩ := v
          obtain ⟨hens, hev, hparts, hmst, hmdrv, hmid, hmeid, hmat, hnext⟩ :=
            create_match_ok_inv hrun
          obtain ⟨d, r, hdf, hrf, _, _, _, _, _, hseat⟩ :=
            ensure_compatible_and_seat_ok_inv hens
          have hdmem := filter_singleton_mem hdf
          have hdid : d.id = dpid := by
            have h2 := hdmem.2
            simp only [Bool.and_eq_true, beq_iff_eq] at h2
            exact h2.1
          constructor
          · rw [idsBounded_iff]
            rw [hnext]
            constructor
            · intro q hq
              rw [hparts] at hq
              have := hWp q hq
              omega
            · intro mm hmm
              rw [hmat] at hmm
              rcases List.mem_append.mp hmm with hml | hm2
              · have := hWm mm hml
                omega
              · rw [List.mem_singleton.mp hm2, hmdrv, ← hdid]
                have := hWp d hdmem.1
                omega
          · rw [driverSeatInv_iff]
            intro q hq
            rw [hparts] at hq
            rw [accepted_count_eq, hmat, List.countP_append]
            have hz : List.countP (acceptedSel q.event_id q.id) [m2] = 0 := by
              simp [List.countP_cons, acceptedSel, hmst]
            rw [hz]
            rw [← accepted_count_eq s q.event_id q.id]
            simp only [Nat.add_zero]
            exact hJ q hq
  | updateMatch mid uid next =>
      simp only [applyOp]
      cases hrun : update_match_status s mid uid next with
      | error e => exact ⟨hwf, hinv⟩
      | ok v =>
          obtain ⟨s2, m2⟩ := v
          obtain ⟨m, hfilM, hpres, hev, hparts, hnext, hmat, hens⟩ :=
            update_match_status_ok_inv hrun
          have hmmem := filter_singleton_mem hfilM
          have hm2drv : m2.driver_participant_id = m.driver_participant_id := by
            rw [hpres]
          have hm2eid : m2.event_id = m.event_id := by
            rw [hpres]
          have hm2st : m2.status = next := by
            rw [hpres]
          constructor
          · rw [idsBounded_iff]
            rw [hnext]
            constructor
            · intro q hq
              rw [hparts] at hq
              exact hWp q hq
            · intro mm hmm
              rw [hmat] at hmm
              obtain ⟨m0, hm0, hfm⟩ := List.mem_map.mp hmm
              by_cases hsel : (m0.id == mid) = true
              · rw [if_pos hsel] at hfm
                rw [← hfm, hm2drv]
                exact hWm m hmmem.1
              · rw [if_neg hsel] at hfm
                rw [← hfm]
                exact hWm m0 hm0
          · rw [driverSeatInv_iff]
            intro q hq
            rw [hparts] at hq
            rw [accepted_count_eq, hmat]
            by_cases hacc : next = RideMatchStatus.ACCEPTED
            · by_cases hkey : q.event_id = m.event_id ∧
                  q.id = m.driver_participant_id
              · -- the driver whose count may grow: the check bounds it
                obtain ⟨d, r, hdf, hrf, _, _, _, _, _, hseat⟩ :=
                  ensure_compatible_and_seat_ok_inv (hens hacc)
                have hqd : q = d := by
                  apply filter_singleton_unique hdf q hq
                  simp [hkey.1, hkey.2]
                have hb := countP_map_le_add
                  (fun x => if (x.id == mid) = true then m2 else x)
                  (acceptedSel q.event_id q.id)
                  (fun (x : RideMatch) => x.id == mid) s.ride_matches (by
                    intro a _ hsel
                    simp [hsel])
                have hone := filter_singleton_countP hfilM
                rw [accepted_count_eq] at hseat
                have hdid : d.id = m.driver_participant_id := by
                  have h2 := (filter_singleton_mem hdf).2
                  simp only [Bool.and_eq_true, beq_iff_eq] at h2
                  exact h2.1
                have hkeyeq : acceptedSel q.event_id q.id =
                    acceptedSel m.event_id d.id := by
                  rw [hkey.1, hkey.2, hdid]
                rw [hkeyeq]
                rw [hqd]
                rw [hkeyeq] at hb
                omega
              · -- any other driver key is untouched
                refine le_trans (countP_map_le_of_imp _ _ _ ?_) ?_
                · intro a _ hfa
                  by_cases hsel : (a.id == mid) = true
                  · rw [if_pos hsel] at hfa
                    obtain ⟨h1, h2, _⟩ := acceptedSel_iff.mp hfa
                    rw [hm2eid] at h1
                    rw [hm2drv] at h2
                    exact absurd ⟨h1.symm, h2.symm⟩ hkey
                  · rw [if_neg hsel] at hfa
                    exact hfa
                · rw [← accepted_count_eq s q.event_id q.id]
                  exact hJ q hq
            · -- REJECTED or CANCELED: counts only decrease
              refine le_trans (countP_map_le_of_imp _ _ _ ?_) ?_
              · intro a _ hfa
                by_cases hsel : (a.id == mid) = true
                · rw [if_pos hsel] at hfa
                  obtain ⟨_, _, h3⟩ := acceptedSel_iff.mp hfa
                  rw [hm2st] at h3
                  exact absurd h3 hacc
                · rw [if_neg hsel] at hfa
                  exact hfa
              · rw [← accepted_count_eq s q.event_id q.id]
                exact hJ q hq

/-- C2 amended: for every driver participant, in every state reachable
by a sequence of operations none of which rewrites the ride fields of an
existing participant to fewer seats than their current ACCEPTED driver
matches without a cascading ride-mode change (seat-safe operations, in
particular traces without seats_offered reductions), the number of
ACCEPTED matches naming the participant as driver never exceeds
seats_offered.  The counterexample shows the bound is broken by an
update_my_participation that lowers seats_offered with ride_mode
unchanged. -/
theorem driver_seats_invariant_for_safe_traces
    (s0 : DB) (ops : List Op)
    (hwf : idsBounded s0 = true)
    (hinv : driverSeatInv s0 = true)
    (hsafe : seatSafeTrace s0 ops = true) :
    driverSeatInv (runOps s0 ops) = true := by
  induction ops generalizing s0 with
  | nil => exact hinv
  | cons op ops ih =>
      unfold seatSafeTrace at hsafe
      rw [Bool.and_eq_true] at hsafe
      obtain ⟨h1, h2⟩ := hsafe
      obtain ⟨hw2, hi2⟩ := seat_invariants_applyOp s0 op hwf hinv h1
      exact ih (applyOp s0 op) hw2 hi2 h2

/-- Witness for C2 amended: the counterexample trace without its final
seat reduction is seat-safe and keeps the invariant. -/
theorem driver_seats_invariant_for_safe_traces_witness :
    idsBounded c2State = true ∧ driverSeatInv c2State = true ∧
    seatSafeTrace c2State w2Ops = true ∧
    driverSeatInv (runOps c2State w2Ops) = true :=
  ⟨by decide, by decide, by decide,
    driver_seats_invariant_for_safe_traces c2State w2Ops
      (by decide) (by decide) (by decide)⟩

end EGM
